import Mathlib

/-!
# A shallow embedding of the 2D physics sandbox (`src/main.cpp`)

The source computes with `float`.  The embedding is generic in the scalar type: every
definition is written over an arbitrary linearly ordered field `α` (exact arithmetic), so the
same definitions run on `ℚ` and are reasoned about on `ℝ`.  The library function `sqrt` of
`<math.h>` is a parameter `sqrt : α → α` of every definition that reaches it; theorems that
depend on what `sqrt` computes assume `IsSqrt sqrt`.

The `int` gravity scale `a_const` is an `Int` kept in the 32-bit range by `wrapInt`.

A `std::vector<Shape*>` is a `List (Shape α)`; the receiver `this` of a member function that
walks the collection is the index of the shape in that list.
-/

namespace Physics

/-! ## Geometry (`class Vector`, lines 17-92) -/

/-- Pair of scalars of `class Vector` (lines 17-26). -/
structure Vector (α : Type) where
  x : α
  y : α

/-- Modelled from the spec: the colour type `TPixel` of the rendering library (`tigr.h` is not
part of the sources), an RGB triple that the simulation only stores and copies. -/
structure TPixel where
  r : Nat
  g : Nat
  b : Nat

/-- Modelled from the spec: `tigrRGB` of the rendering library, which packs three channels. -/
def tigrRGB (r g b : Nat) : TPixel := ⟨r, g, b⟩

section Defs

variable {α : Type} [LinearOrderedField α]

/-- Specification of the library function `sqrt` on the non-negative scalars: the result is
non-negative and squares to the argument. -/
def IsSqrt (sqrt : α → α) : Prop :=
  ∀ x : α, 0 ≤ x → 0 ≤ sqrt x ∧ sqrt x * sqrt x = x

namespace Vector

/-- Implicit conversion `Vector(float x = 0.0f, float y = 0.0f)` applied to one scalar
(lines 20-22): the second component takes its default `0`. -/
def ofScalar (x : α) : Vector α := ⟨x, 0⟩

/-- Member `operator+` (lines 29-31); `operator+=` (lines 33-37) stores the same value. -/
def add (a v : Vector α) : Vector α := ⟨a.x + v.x, a.y + v.y⟩

/-- Member `operator-` (lines 39-41); `operator-=` (lines 43-47) stores the same value. -/
def sub (a v : Vector α) : Vector α := ⟨a.x - v.x, a.y - v.y⟩

/-- Member `operator*` (lines 49-51); `operator*=` (lines 53-57) stores the same value. -/
def mul (a : Vector α) (b : α) : Vector α := ⟨a.x * b, a.y * b⟩

/-- Member `operator/` (lines 59-61); `operator/=` (lines 63-67) stores the same value. -/
def div (a : Vector α) (b : α) : Vector α := ⟨a.x / b, a.y / b⟩

/-- Member `dot` (lines 70-72). -/
def dot (a other : Vector α) : α := a.x * other.x + a.y * other.y

/-- Member `cross` (lines 75-77). -/
def cross (a other : Vector α) : α := a.x * other.y - a.y * other.x

/-- Member `length` (lines 80-82). -/
def length (sqrt : α → α) (a : Vector α) : α := sqrt (a.x * a.x + a.y * a.y)

/-- Member `normal` (lines 85-91): the division happens only under the guard `len > 0`. -/
def normal (sqrt : α → α) (a : Vector α) : Vector α :=
  let len := a.length sqrt
  if len > 0 then ⟨a.x / len, a.y / len⟩ else ⟨0, 0⟩

end Vector

/-- Library function `std::clamp(v, lo, hi)`: `lo` when `v < lo`, else `hi` when `hi < v`,
else `v`. -/
def clamp (v lo hi : α) : α := if v < lo then lo else if hi < v then hi else v

/-! ## Shape model (`class Shape`, `class Circle`, `class Rectangle`) -/

/-- Fields of `class Circle` with those inherited from `Shape` (lines 154-158, 180). -/
structure Circle (α : Type) where
  center : Vector α
  acceleration : Vector α
  velocity : Vector α
  color : TPixel
  intersecting : Bool
  radius : α

/-- Fields of `class Rectangle` with those inherited from `Shape` (lines 154-158, 283). -/
structure Rectangle (α : Type) where
  center : Vector α
  acceleration : Vector α
  velocity : Vector α
  color : TPixel
  intersecting : Bool
  size : Vector α

/-- Object behind a `Shape*`: its dynamic type is one of the two concrete classes. -/
inductive Shape (α : Type) where
  | circle (c : Circle α)
  | rectangle (r : Rectangle α)

/-- Constructor `Circle(p, r, c, a, v)` (lines 170-177); `intersecting` starts `false`. -/
def Circle.new (p : Vector α) (r : α) (c : TPixel) (a v : Vector α) : Circle α :=
  { center := p, acceleration := a, velocity := v, color := c, intersecting := false,
    radius := r }

/-- Constructor `Rectangle(pos, e, c, a, v)` (lines 274-281); `intersecting` starts `false`. -/
def Rectangle.new (pos e : Vector α) (c : TPixel) (a v : Vector α) : Rectangle α :=
  { center := pos, acceleration := a, velocity := v, color := c, intersecting := false,
    size := e }

/-! ## Intersection tests -/

/-- Member `Circle::intersectCircle` (lines 193-196). -/
def Circle.intersectCircle (sqrt : α → α) (self other : Circle α) : Bool :=
  let distance := (self.center.sub other.center).length sqrt
  decide (distance < self.radius + other.radius)

/-- Member `Circle::intersects` (lines 185-190): only a `Circle` passes the `dynamic_cast`. -/
def Circle.intersects (sqrt : α → α) (self : Circle α) (other : Shape α) : Bool :=
  match other with
  | Shape.circle circ => self.intersectCircle sqrt circ
  | Shape.rectangle _ => false

/-- Member `Rectangle::intersectRect` (lines 302-307). -/
def Rectangle.intersectRect (self other : Rectangle α) : Bool :=
  !(decide (self.center.x + self.size.x / 2 < other.center.x - other.size.x / 2) ||
    decide (self.center.x - self.size.x / 2 > other.center.x + other.size.x / 2) ||
    decide (self.center.y + self.size.y / 2 < other.center.y - other.size.y / 2) ||
    decide (self.center.y - self.size.y / 2 > other.center.y + other.size.y / 2))

/-- Member `Rectangle::intersectCircle` (lines 310-322). -/
def Rectangle.intersectCircle (self : Rectangle α) (circle : Circle α) : Bool :=
  let closestX := clamp circle.center.x (self.center.x - self.size.x / 2)
    (self.center.x + self.size.x / 2)
  let closestY := clamp circle.center.y (self.center.y - self.size.y / 2)
    (self.center.y + self.size.y / 2)
  let distanceX := circle.center.x - closestX
  let distanceY := circle.center.y - closestY
  decide (distanceX * distanceX + distanceY * distanceY < circle.radius * circle.radius)

/-- Member `Rectangle::intersects` (lines 292-299): the `Circle` cast is tried first, then the
`Rectangle` cast. -/
def Rectangle.intersects (self : Rectangle α) (other : Shape α) : Bool :=
  match other with
  | Shape.circle circ => self.intersectCircle circ
  | Shape.rectangle rect => self.intersectRect rect

/-- Virtual call `s->intersects(other)` through a `Shape*`. -/
def Shape.intersects (sqrt : α → α) (s other : Shape α) : Bool :=
  match s with
  | Shape.circle c => c.intersects sqrt other
  | Shape.rectangle r => r.intersects other

/-! ## Collision resolver -/

/-- Member `Circle::handleCollision` (lines 236-264); the pair after the call is
`(*this, other)`.  The locals `distance` and `penetration` (lines 239-240) are computed and
never read.  Lines 262-263 add a scalar to a `Vector`, which goes through the implicit
conversion `Vector.ofScalar`. -/
def Circle.handleCollision (sqrt : α → α) (self other : Circle α) : Circle α × Circle α :=
  let normal := (other.center.sub self.center).normal sqrt
  let relativeVelocity := self.velocity.sub other.velocity
  let velocityAlongNormal := relativeVelocity.dot normal
  if velocityAlongNormal < 0 then (self, other)
  else
    let e : α := 9 / 10
    let impulseScalar := -(1 + e) * velocityAlongNormal
    let impulseScalar := impulseScalar /
      (1 / (self.radius * self.radius) + 1 / (other.radius * other.radius))
    let impulse := normal.mul impulseScalar
    let velocity := self.velocity.add ((impulse.div (self.radius * self.radius)).mul (9 / 10))
    let otherVelocity := other.velocity.sub (impulse.div (other.radius * other.radius))
    let center := self.center.sub (Vector.ofScalar (1 / (self.radius * self.radius)))
    let otherCenter :=
      other.center.add (Vector.ofScalar (1 / (other.radius * other.radius)))
    ({ self with velocity := velocity, center := center },
     { other with velocity := otherVelocity, center := otherCenter })

/-- First half of `Rectangle::handleCollision(Rectangle&)` (lines 379-402): the push along the
axis of minimum overlap and the velocity exchange. -/
def Rectangle.pushApart (overlapX overlapY : α) (self other : Rectangle α) :
    Rectangle α × Rectangle α :=
  if overlapX < overlapY then
    let centerX :=
      if self.center.x < other.center.x then self.center.x - overlapX
      else self.center.x + overlapX
    let impulse := self.velocity.x - other.velocity.x
    ({ self with center := ⟨centerX, self.center.y⟩,
                 velocity := ⟨-impulse * (1 / 2), self.velocity.y⟩ },
     { other with velocity := ⟨impulse * (1 / 2), other.velocity.y⟩ })
  else
    let centerY :=
      if self.center.y < other.center.y then self.center.y - overlapY
      else self.center.y + overlapY
    let impulse := self.velocity.y - other.velocity.y
    ({ self with center := ⟨self.center.x, centerY⟩,
                 velocity := ⟨self.velocity.x, -impulse * (1 / 2)⟩ },
     { other with velocity := ⟨other.velocity.x, impulse * (1 / 2)⟩ })

/-- One of the two correction branches of `Rectangle::handleCollision(Rectangle&)`
(lines 411-417 with `towards := center.x < other.center.x`, lines 418-424 with
`towards := center.y < other.center.y`). -/
def Rectangle.correct (towards : Bool) (correction : Vector α) (mass otherMass massTotal : α)
    (self other : Rectangle α) : Rectangle α × Rectangle α :=
  if towards then
    ({ self with center := self.center.sub (correction.mul (otherMass / massTotal)) },
     { other with center := other.center.add (correction.mul (mass / massTotal)) })
  else
    ({ self with center := self.center.add (correction.mul (otherMass / massTotal)) },
     { other with center := other.center.sub (correction.mul (mass / massTotal)) })

/-- Member `Rectangle::handleCollision(Rectangle&)` (lines 365-426); the pair after the call
is `(*this, other)`.  `abs` is the absolute value of a `float`. -/
def Rectangle.handleCollision (self other : Rectangle α) : Rectangle α × Rectangle α :=
  let overlapX := 1 / 2 * (self.size.x + other.size.x) - |self.center.x - other.center.x|
  let overlapY := 1 / 2 * (self.size.y + other.size.y) - |self.center.y - other.center.y|
  let mass := self.size.x * self.size.y
  let otherMass := other.size.x * other.size.y
  if overlapX > 0 ∧ overlapY > 0 then
    let p := Rectangle.pushApart overlapX overlapY self other
    let massTotal := mass + otherMass
    let correction : Vector α :=
      (if overlapX < overlapY then ⟨overlapX, 0⟩ else ⟨0, overlapY⟩ : Vector α).mul (1 / 2)
    let q := Rectangle.correct (decide (p.1.center.x < p.2.center.x)) correction mass otherMass
      massTotal p.1 p.2
    Rectangle.correct (decide (q.1.center.y < q.2.center.y)) correction mass otherMass
      massTotal q.1 q.2
  else (self, other)

/-- Member `Rectangle::handleCollision(Circle&)` (lines 429-473); the pair after the call is
`(*this, circle)`. -/
def Rectangle.handleCollisionCircle (sqrt : α → α) (self : Rectangle α) (circle : Circle α) :
    Rectangle α × Circle α :=
  let closestX := clamp circle.center.x (self.center.x - self.size.x / 2)
    (self.center.x + self.size.x / 2)
  let closestY := clamp circle.center.y (self.center.y - self.size.y / 2)
    (self.center.y + self.size.y / 2)
  let collisionPoint : Vector α := ⟨closestX, closestY⟩
  let collisionNormal := (circle.center.sub collisionPoint).normal sqrt
  let overlap := circle.radius - (circle.center.sub collisionPoint).length sqrt
  if overlap > 0 then
    let relativeVelocity := circle.velocity.sub self.velocity
    let velocityAlongNormal := relativeVelocity.dot collisionNormal
    if velocityAlongNormal > 0 then (self, circle)
    else
      let mass := self.size.x * self.size.y
      let e : α := 9 / 10
      let combinedMass := 1 / mass + 1 / (circle.radius * circle.radius)
      let impulseScalar := -(1 + e) * velocityAlongNormal / combinedMass
      let impulse := collisionNormal.mul impulseScalar
      let velocity := self.velocity.sub (impulse.div mass)
      let circleVelocity :=
        circle.velocity.add (impulse.div (circle.radius * circle.radius))
      let center := self.center.sub (Vector.ofScalar (1 / mass))
      let circleCenter :=
        circle.center.add (Vector.ofScalar (1 / (circle.radius * circle.radius)))
      ({ self with velocity := velocity, center := center },
       { circle with velocity := circleVelocity, center := circleCenter })
  else (self, circle)

/-! ## Integrator and boundary handler (`update`) -/

/-- Lines 205-206 of `Circle::update`: the velocity is updated first and the new velocity
moves the center. -/
def Circle.integrate (self : Circle α) (dt : α) : Circle α :=
  let velocity := self.velocity.sub (self.acceleration.mul dt)
  { self with velocity := velocity, center := self.center.add (velocity.mul dt) }

/-- Lines 209-212 of `Circle::update`: the left and right walls. -/
def Circle.bounceX (self : Circle α) : Circle α :=
  if self.center.x - self.radius < 0 ∨ self.center.x + self.radius > 1000 then
    let velocityX := -self.velocity.x * (9 / 10)
    { self with
      velocity := ⟨velocityX, self.velocity.y⟩,
      center := ⟨if velocityX < 0 then 1000 - self.radius else 0 + self.radius,
                 self.center.y⟩ }
  else self

/-- Lines 213-216 of `Circle::update`: the top and bottom walls, inset by 40. -/
def Circle.bounceY (self : Circle α) : Circle α :=
  if self.center.y - self.radius - 40 < 0 ∨ self.center.y + self.radius + 40 > 1000 then
    let velocityY := -self.velocity.y * (9 / 10)
    { self with
      velocity := ⟨self.velocity.x, velocityY⟩,
      center := ⟨self.center.x,
                 if velocityY < 0 then 1000 - self.radius - 40 else self.radius + 40⟩ }
  else self

/-- Lines 205-219 of `Circle::update`: integration, the two wall tests, and the reset of the
`intersecting` flag. -/
def Circle.updateBody (self : Circle α) (dt : α) : Circle α :=
  { ((self.integrate dt).bounceX).bounceY with intersecting := false }

/-- Body of the loop of `Circle::update` (lines 224-232) for the entry at index `j`, the
receiver being the entry at index `i`: the receiver itself and every `Rectangle` are skipped. -/
def Circle.visit (sqrt : α → α) (i : Nat) (shapes : List (Shape α)) (j : Nat) :
    List (Shape α) :=
  if j = i then shapes
  else
    match shapes[i]?, shapes[j]? with
    | some (Shape.circle self), some (Shape.circle other) =>
      if self.intersects sqrt (Shape.circle other) then
        let p := Circle.handleCollision sqrt { self with intersecting := true } other
        (shapes.set i (Shape.circle p.1)).set j (Shape.circle p.2)
      else shapes
    | _, _ => shapes

/-- Member `Circle::update` (lines 204-233) called on the shape at index `i` of `shapes`;
the result is the collection after the call. -/
def Circle.update (sqrt : α → α) (dt : α) (shapes : List (Shape α)) (i : Nat) :
    List (Shape α) :=
  match shapes[i]? with
  | some (Shape.circle self) =>
    (List.range shapes.length).foldl (Circle.visit sqrt i)
      (shapes.set i (Shape.circle (self.updateBody dt)))
  | _ => shapes

/-- Lines 325-326 of `Rectangle::update`. -/
def Rectangle.integrate (self : Rectangle α) (dt : α) : Rectangle α :=
  let velocity := self.velocity.sub (self.acceleration.mul dt)
  { self with velocity := velocity, center := self.center.add (velocity.mul dt) }

/-- Lines 329-332 of `Rectangle::update`: the left and right walls. -/
def Rectangle.bounceX (self : Rectangle α) : Rectangle α :=
  if self.center.x - self.size.x / 2 < 0 ∨ self.center.x + self.size.x / 2 > 1000 then
    let velocityX := -self.velocity.x * (9 / 10)
    { self with
      velocity := ⟨velocityX, self.velocity.y⟩,
      center := ⟨if velocityX < 0 then 1000 - self.size.x / 2 else 0 + self.size.x / 2,
                 self.center.y⟩ }
  else self

/-- Lines 336-341 of `Rectangle::update`: the top and bottom walls, inset by 40. -/
def Rectangle.bounceY (self : Rectangle α) : Rectangle α :=
  if self.center.y - self.size.y / 2 - 40 < 0 ∨ self.center.y + self.size.y / 2 + 40 > 1000 then
    let velocityY := -self.velocity.y * (9 / 10)
    { self with
      velocity := ⟨self.velocity.x, velocityY⟩,
      center := ⟨self.center.x,
                 if velocityY < 0 then 1000 - self.size.y / 2 - 40
                 else 0 + self.size.y / 2 + 40⟩ }
  else self

/-- Lines 325-345 of `Rectangle::update`: integration, the two wall tests, and the reset of
the `intersecting` flag. -/
def Rectangle.updateBody (self : Rectangle α) (dt : α) : Rectangle α :=
  { ((self.integrate dt).bounceX).bounceY with intersecting := false }

/-- Body of the loop of `Rectangle::update` (lines 347-361) for the entry at index `j`, the
receiver being the entry at index `i`. -/
def Rectangle.visit (sqrt : α → α) (i : Nat) (shapes : List (Shape α)) (j : Nat) :
    List (Shape α) :=
  if j = i then shapes
  else
    match shapes[i]?, shapes[j]? with
    | some (Shape.rectangle self), some (Shape.rectangle rect) =>
      if self.intersects (Shape.rectangle rect) then
        let p := Rectangle.handleCollision { self with intersecting := true } rect
        (shapes.set i (Shape.rectangle p.1)).set j (Shape.rectangle p.2)
      else shapes
    | some (Shape.rectangle self), some (Shape.circle circ) =>
      if self.intersects (Shape.circle circ) then
        let p := Rectangle.handleCollisionCircle sqrt { self with intersecting := true } circ
        (shapes.set i (Shape.rectangle p.1)).set j (Shape.circle p.2)
      else shapes
    | _, _ => shapes

/-- Member `Rectangle::update` (lines 324-362) called on the shape at index `i` of `shapes`;
the result is the collection after the call. -/
def Rectangle.update (sqrt : α → α) (dt : α) (shapes : List (Shape α)) (i : Nat) :
    List (Shape α) :=
  match shapes[i]? with
  | some (Shape.rectangle self) =>
    (List.range shapes.length).foldl (Rectangle.visit sqrt i)
      (shapes.set i (Shape.rectangle (self.updateBody dt)))
  | _ => shapes

/-- Virtual call `shape->update(dt, shapes)` on the shape at index `i` (line 650). -/
def Shape.update (sqrt : α → α) (dt : α) (shapes : List (Shape α)) (i : Nat) :
    List (Shape α) :=
  match shapes[i]? with
  | some (Shape.circle _) => Circle.update sqrt dt shapes i
  | some (Shape.rectangle _) => Rectangle.update sqrt dt shapes i
  | none => shapes

/-! ## Spawner and command layer -/

/-- Read of the base-class field `acceleration` through a `Shape*`. -/
def Shape.acceleration (s : Shape α) : Vector α :=
  match s with
  | Shape.circle c => c.acceleration
  | Shape.rectangle r => r.acceleration

/-- Read of the base-class field `velocity` through a `Shape*`. -/
def Shape.velocity (s : Shape α) : Vector α :=
  match s with
  | Shape.circle c => c.velocity
  | Shape.rectangle r => r.velocity

/-- Read of the base-class field `intersecting` through a `Shape*` (line 651). -/
def Shape.intersecting (s : Shape α) : Bool :=
  match s with
  | Shape.circle c => c.intersecting
  | Shape.rectangle r => r.intersecting

/-- Write of the base-class field `acceleration` through a `Shape*`. -/
def Shape.setAcceleration (s : Shape α) (v : Vector α) : Shape α :=
  match s with
  | Shape.circle c => Shape.circle { c with acceleration := v }
  | Shape.rectangle r => Shape.rectangle { r with acceleration := v }

/-- Write of the base-class field `velocity` through a `Shape*`. -/
def Shape.setVelocity (s : Shape α) (v : Vector α) : Shape α :=
  match s with
  | Shape.circle c => Shape.circle { c with velocity := v }
  | Shape.rectangle r => Shape.rectangle { r with velocity := v }

/-- Value of a 32-bit `int` after an arithmetic step whose exact result is `n`.  Signed
overflow is undefined in C++; the embedding takes the two's-complement wrap-around that the
usual targets produce, and agrees with the exact result whenever that result is representable. -/
def wrapInt (n : Int) : Int := (n + 2147483648) % 4294967296 - 2147483648

/-- Largest value of a 32-bit `int`. -/
def INT_MAX : Int := 2147483647

/-- Function `createRandomShape` (lines 484-530).  `rand k` is the result of the `k`-th call of
`rand()` made by this invocation, the calls being numbered in the order the source text lists
them.  The retry loop (lines 502-528) is entered at `i = 0`; its overlap test (lines 504-520)
computes one boolean for each existing shape, none of which is read, and the loop body then
returns.  The result is `none` for `nullptr`. -/
def createRandomShape (sqrt : α → α) (rand : Nat → Nat) (shapes : List (Shape α))
    (a : Vector α) (a_const : Int) : Option (Shape α) :=
  let type := rand 0 % 2
  let radius : α := ((20 + rand 1 % 30 : Nat) : α)
  let color := tigrRGB (rand 2 % 256) (rand 3 % 256) (rand 4 % 256)
  let size : Vector α := ⟨((40 + rand 5 % 100 : Nat) : α), ((40 + rand 6 % 60 : Nat) : α)⟩
  let position : Vector α := ⟨((rand 7 % 940 + 30 : Nat) : α), ((rand 8 % 940 + 30 : Nat) : α)⟩
  let v : Vector α := ⟨0, 0⟩
  let i : Nat := 0
  if i < 5 then
    let _overlaps : List Bool := shapes.map fun _ =>
      if type = 0 then
        let tempCircle := Circle.new position radius color (a.mul (a_const : α)) v
        shapes.any fun s => s.intersects sqrt (Shape.circle tempCircle)
      else
        let tempRectangle := Rectangle.new position size color (a.mul (a_const : α)) v
        shapes.any fun s => s.intersects sqrt (Shape.rectangle tempRectangle)
    if type = 0 then
      some (Shape.circle (Circle.new position radius color (a.mul (a_const : α)) v))
    else
      some (Shape.rectangle (Rectangle.new position size color (a.mul (a_const : α)) v))
  else none

/-- Keys whose `tigrKeyDown` result `handleKeyboard` reads during one call. -/
structure Keys where
  space : Bool
  backspace : Bool
  up : Bool
  down : Bool
  left : Bool
  right : Bool
  minus : Bool
  equals : Bool

/-- Variables of `main` that `handleKeyboard` reads and writes (lines 623-625). -/
structure Sim (α : Type) where
  shapes : List (Shape α)
  a : Vector α
  a_const : Int

/-- Branch `TK_SPACE` of `handleKeyboard` (lines 535-544). -/
def keySpace (sqrt : α → α) (rand : Nat → Nat) (s : Sim α) : Sim α :=
  match createRandomShape sqrt rand s.shapes s.a s.a_const with
  | some newShape => { s with shapes := s.shapes ++ [newShape] }
  | none => s

/-- Branch `TK_BACKSPACE` of `handleKeyboard` (lines 547-549). -/
def keyBackspace (s : Sim α) : Sim α := { s with shapes := [] }

/-- Branches `TK_UP`, `TK_DOWN`, `TK_LEFT`, `TK_RIGHT` of `handleKeyboard` (lines 552-591),
which differ only in the vector `dir` they store into `a`. -/
def keyDirection (dir : Vector α) (s : Sim α) : Sim α :=
  { s with
    a := dir,
    shapes := s.shapes.map fun shape =>
      if s.a_const = 0 then shape.setVelocity (shape.velocity.sub dir)
      else shape.setAcceleration (dir.mul (s.a_const : α)) }

/-- Branch `TK_MINUS` of `handleKeyboard` (lines 594-604). -/
def keyMinus (s : Sim α) : Sim α :=
  let s1 : Sim α :=
    if s.a_const > 0 then
      { s with
        shapes := s.shapes.map fun shape =>
          shape.setAcceleration (shape.acceleration.div (s.a_const : α)),
        a_const := wrapInt (s.a_const - 1) }
    else s
  { s1 with
    shapes := s1.shapes.map fun shape =>
      shape.setAcceleration (shape.acceleration.mul (s1.a_const : α)) }

/-- Branch `TK_EQUALS` of `handleKeyboard` (lines 605-615). -/
def keyEquals (s : Sim α) : Sim α :=
  let s1 : Sim α :=
    if s.a_const > 0 then
      { s with
        shapes := s.shapes.map fun shape =>
          shape.setAcceleration (shape.acceleration.div (s.a_const : α)) }
    else s
  let a_const := wrapInt (s1.a_const + 1)
  { s1 with
    a_const := a_const,
    shapes := s1.shapes.map fun shape =>
      shape.setAcceleration (shape.acceleration.mul (a_const : α)) }

/-- Function `handleKeyboard` (lines 533-616): the eight key tests run in source order. -/
def handleKeyboard (sqrt : α → α) (rand : Nat → Nat) (keys : Keys) (s : Sim α) : Sim α :=
  let s := if keys.space then keySpace sqrt rand s else s
  let s := if keys.backspace then keyBackspace s else s
  let s := if keys.up then keyDirection ⟨0, 200⟩ s else s
  let s := if keys.down then keyDirection ⟨0, -200⟩ s else s
  let s := if keys.left then keyDirection ⟨200, 0⟩ s else s
  let s := if keys.right then keyDirection ⟨-200, 0⟩ s else s
  let s := if keys.minus then keyMinus s else s
  if keys.equals then keyEquals s else s

/-- Successive calls of `handleKeyboard` (line 640), one for each entry of `inputs`: an entry
gives the results of `rand()` and the keys that are down during that call. -/
def handleKeyboardSeq (sqrt : α → α) (inputs : List ((Nat → Nat) × Keys)) (s : Sim α) : Sim α :=
  inputs.foldl (fun st input => handleKeyboard sqrt input.1 input.2 st) s

/-! ## Specification-side notions -/

/-- Specification-side notion (not in the source): the point `p` lies in the axis-aligned box
`[center - size/2, center + size/2]` of the rectangle. -/
def Rectangle.inBox (self : Rectangle α) (p : Vector α) : Prop :=
  self.center.x - self.size.x / 2 ≤ p.x ∧ p.x ≤ self.center.x + self.size.x / 2 ∧
  self.center.y - self.size.y / 2 ≤ p.y ∧ p.y ≤ self.center.y + self.size.y / 2

/-- Specification-side notion: the point of the rectangle's box closest to `p`, which the
source computes by clamping each coordinate (lines 312-315 and 431-434). -/
def Rectangle.closestPoint (self : Rectangle α) (p : Vector α) : Vector α :=
  ⟨clamp p.x (self.center.x - self.size.x / 2) (self.center.x + self.size.x / 2),
   clamp p.y (self.center.y - self.size.y / 2) (self.center.y + self.size.y / 2)⟩

end Defs

/-! ## Auxiliary facts -/

section Lemmas

variable {α : Type} [LinearOrderedField α]

/-- The real square root meets the specification `IsSqrt`. -/
theorem isSqrt_real : IsSqrt Real.sqrt :=
  fun x hx => ⟨Real.sqrt_nonneg x, Real.mul_self_sqrt hx⟩

/-- The square root of a perfect square of a non-negative scalar. -/
theorem isSqrt_sqrt_mul_self {sqrt : α → α} (hs : IsSqrt sqrt) {a : α} (ha : 0 ≤ a) :
    sqrt (a * a) = a := by
  obtain ⟨h0, h1⟩ := hs (a * a) (mul_self_nonneg a)
  rcases (mul_self_eq_mul_self_iff.mp h1) with h | h
  · exact h
  · have : sqrt (a * a) = 0 := by linarith
    linarith

/-- On a collection that holds only the circle itself, `Circle::update` is the integration
and wall handling: the loop meets no other shape. -/
theorem circle_update_singleton (sqrt : α → α) (dt : α) (c : Circle α) :
    Circle.update sqrt dt [Shape.circle c] 0 = [Shape.circle (c.updateBody dt)] := by
  simp [Circle.update, Circle.visit, List.range, List.range.loop]

/-- On a collection that holds only the rectangle itself, `Rectangle::update` is the
integration and wall handling: the loop meets no other shape. -/
theorem rectangle_update_singleton (sqrt : α → α) (dt : α) (r : Rectangle α) :
    Rectangle.update sqrt dt [Shape.rectangle r] 0 = [Shape.rectangle (r.updateBody dt)] := by
  simp [Rectangle.update, Rectangle.visit, List.range, List.range.loop]

/-- After the x-wall test a rectangle no wider than the arena lies between the left and
right walls; its size and `center.y` are untouched. -/
theorem rectangle_bounceX_inside (r : Rectangle α) (h1 : r.size.x ≤ 1000) :
    r.bounceX.size = r.size ∧ r.bounceX.center.y = r.center.y ∧
    0 ≤ r.bounceX.center.x - r.size.x / 2 ∧ r.bounceX.center.x + r.size.x / 2 ≤ 1000 := by
  unfold Rectangle.bounceX
  split_ifs with h2
  · refine ⟨rfl, rfl, ?_, ?_⟩ <;> simp only <;> split_ifs <;> linarith
  · simp only [not_or, not_lt, gt_iff_lt] at h2
    exact ⟨rfl, rfl, h2.1, h2.2⟩

/-- After the y-wall test a rectangle of height at most 920 lies between the inset top and
bottom walls; its size and `center.x` are untouched. -/
theorem rectangle_bounceY_inside (r : Rectangle α) (h1 : r.size.y ≤ 920) :
    r.bounceY.size = r.size ∧ r.bounceY.center.x = r.center.x ∧
    40 ≤ r.bounceY.center.y - r.size.y / 2 ∧ r.bounceY.center.y + r.size.y / 2 ≤ 1000 := by
  unfold Rectangle.bounceY
  split_ifs with h2
  · refine ⟨rfl, rfl, ?_, ?_⟩ <;> simp only <;> split_ifs <;> linarith
  · simp only [not_or, not_lt, gt_iff_lt] at h2
    exact ⟨rfl, rfl, by linarith [h2.1], by linarith [h2.2]⟩

omit [LinearOrderedField α] in
/-- Reading the acceleration just written. -/
theorem shape_acceleration_setAcceleration (s : Shape α) (v : Vector α) :
    (s.setAcceleration v).acceleration = v := by
  cases s <;> rfl

/-- An exact result inside the 32-bit range is kept by `wrapInt`. -/
theorem wrapInt_eq_self {n : Int} (h1 : -2147483648 ≤ n) (h2 : n ≤ 2147483647) :
    wrapInt n = n := by
  unfold wrapInt
  omega

/-- The length of a vector other than `(0, 0)` is positive. -/
theorem isSqrt_length_pos {sqrt : α → α} (hs : IsSqrt sqrt) (v : Vector α)
    (hv : v.x ≠ 0 ∨ v.y ≠ 0) : 0 < v.length sqrt := by
  have hpos : 0 < v.x * v.x + v.y * v.y := by
    rcases hv with h | h
    · have := mul_self_pos.mpr h
      nlinarith [mul_self_nonneg v.y]
    · have := mul_self_pos.mpr h
      nlinarith [mul_self_nonneg v.x]
  obtain ⟨h0, h1⟩ := hs _ hpos.le
  unfold Vector.length
  rcases h0.lt_or_eq with h | h
  · exact h
  · rw [← h] at h1
    linarith

/-- The normal of a vector other than `(0, 0)` is a unit vector. -/
theorem isSqrt_normal_dot_self {sqrt : α → α} (hs : IsSqrt sqrt) (v : Vector α)
    (hv : v.x ≠ 0 ∨ v.y ≠ 0) : (v.normal sqrt).dot (v.normal sqrt) = 1 := by
  have hlen := isSqrt_length_pos hs v hv
  have hsq : v.length sqrt * v.length sqrt = v.x * v.x + v.y * v.y :=
    (hs _ (add_nonneg (mul_self_nonneg _) (mul_self_nonneg _))).2
  have hne : v.length sqrt ≠ 0 := hlen.ne.symm
  simp only [Vector.normal, gt_iff_lt, if_pos hlen, Vector.dot]
  field_simp
  linarith

omit [LinearOrderedField α] in
/-- Two vectors with equal components are equal. -/
theorem vector_ext {a b : Vector α} (hx : a.x = b.x) (hy : a.y = b.y) : a = b := by
  cases a
  cases b
  simp only [Vector.mk.injEq]
  exact ⟨hx, hy⟩

/-- A value that clamping leaves alone lies between the bounds. -/
theorem clamp_eq_self {v lo hi : α} (h : clamp v lo hi = v) : lo ≤ v ∧ v ≤ hi := by
  unfold clamp at h
  split_ifs at h with h1 h2
  · constructor <;> linarith
  · constructor <;> linarith
  · exact ⟨not_lt.mp h1, not_lt.mp h2⟩

omit [LinearOrderedField α] in
/-- Writing the acceleration twice keeps the second value. -/
theorem shape_setAcceleration_twice (s : Shape α) (v w : Vector α) :
    (s.setAcceleration v).setAcceleration w = s.setAcceleration w := by
  cases s <;> rfl

omit [LinearOrderedField α] in
/-- Writing back the acceleration just read changes nothing. -/
theorem shape_setAcceleration_self (s : Shape α) : s.setAcceleration s.acceleration = s := by
  cases s <;> rfl

/-- The scale after the `-` branch. -/
theorem keyMinus_a_const (s : Sim α) :
    (keyMinus s).a_const = if s.a_const > 0 then wrapInt (s.a_const - 1) else s.a_const := by
  unfold keyMinus
  split_ifs <;> rfl

/-- The scale after the `=` branch. -/
theorem keyEquals_a_const (s : Sim α) : (keyEquals s).a_const = wrapInt (s.a_const + 1) := by
  unfold keyEquals
  split_ifs <;> rfl

/-- The spawn branch leaves the scale alone. -/
theorem keySpace_a_const (sqrt : α → α) (rand : Nat → Nat) (b : Bool) (s : Sim α) :
    (if b = true then keySpace sqrt rand s else s).a_const = s.a_const := by
  unfold keySpace
  split_ifs
  · split <;> rfl
  · rfl

omit [LinearOrderedField α] in
/-- The clear branch leaves the scale alone. -/
theorem keyBackspace_a_const (b : Bool) (s : Sim α) :
    (if b = true then keyBackspace s else s).a_const = s.a_const := by
  split_ifs <;> rfl

/-- A direction branch leaves the scale alone. -/
theorem keyDirection_a_const (b : Bool) (dir : Vector α) (s : Sim α) :
    (if b = true then keyDirection dir s else s).a_const = s.a_const := by
  split_ifs <;> rfl

/-- The scale after one call of `handleKeyboard`: only the `-` and `=` keys touch it. -/
theorem handleKeyboard_a_const (sqrt : α → α) (rand : Nat → Nat) (keys : Keys) (s : Sim α) :
    (handleKeyboard sqrt rand keys s).a_const =
      if keys.equals = true then
        wrapInt ((if keys.minus = true then
          (if s.a_const > 0 then wrapInt (s.a_const - 1) else s.a_const) else s.a_const) + 1)
      else
        (if keys.minus = true then
          (if s.a_const > 0 then wrapInt (s.a_const - 1) else s.a_const) else s.a_const) := by
  obtain ⟨sp, bs, up, dn, lf, rt, mi, eq⟩ := keys
  cases mi <;> cases eq <;>
    simp only [handleKeyboard, if_true, Bool.false_eq_true, if_false, keyEquals_a_const,
      keyMinus_a_const, keySpace_a_const, keyBackspace_a_const, keyDirection_a_const]

/-- While fewer increments are issued than would take the scale past `INT_MAX`, the scale
stays between `0` and its start plus the number of increments. -/
theorem handleKeyboardSeq_a_const (sqrt : α → α) (inputs : List ((Nat → Nat) × Keys)) :
    ∀ s : Sim α, 0 ≤ s.a_const →
      s.a_const + ((inputs.countP fun input => input.2.equals : Nat) : Int) ≤ INT_MAX →
      0 ≤ (handleKeyboardSeq sqrt inputs s).a_const ∧
      (handleKeyboardSeq sqrt inputs s).a_const ≤
        s.a_const + ((inputs.countP fun input => input.2.equals : Nat) : Int) := by
  induction inputs with
  | nil =>
    intro s h0 _
    simp only [handleKeyboardSeq, List.foldl_nil, List.countP_nil, Nat.cast_zero, add_zero]
    exact ⟨h0, le_refl _⟩
  | cons x xs ih =>
    intro s h0 h1
    have hstep := handleKeyboard_a_const sqrt x.1 x.2 s
    have hfold : handleKeyboardSeq sqrt (x :: xs) s =
        handleKeyboardSeq sqrt xs (handleKeyboard sqrt x.1 x.2 s) := rfl
    rw [hfold]
    rw [List.countP_cons] at h1 ⊢
    unfold INT_MAX at h1
    by_cases he : x.2.equals = true
    · simp only [he, if_true, Nat.cast_add, Nat.cast_one] at h1 hstep ⊢
      have hb : 0 ≤ (handleKeyboard sqrt x.1 x.2 s).a_const ∧
          (handleKeyboard sqrt x.1 x.2 s).a_const ≤ s.a_const + 1 := by
        rw [hstep]
        unfold wrapInt
        split_ifs <;> omega
      obtain ⟨i1, i2⟩ := ih (handleKeyboard sqrt x.1 x.2 s) hb.1 (by unfold INT_MAX; omega)
      exact ⟨i1, by omega⟩
    · simp only [he, Bool.false_eq_true, if_false, Nat.cast_add, Nat.cast_zero, add_zero]
        at h1 hstep ⊢
      have hb : 0 ≤ (handleKeyboard sqrt x.1 x.2 s).a_const ∧
          (handleKeyboard sqrt x.1 x.2 s).a_const ≤ s.a_const := by
        rw [hstep]
        unfold wrapInt
        split_ifs <;> omega
      obtain ⟨i1, i2⟩ := ih (handleKeyboard sqrt x.1 x.2 s) hb.1 (by unfold INT_MAX; omega)
      exact ⟨i1, by omega⟩

/-- Repeating the increment command `n` times adds `n` to the scale while the result stays
within the 32-bit range. -/
theorem handleKeyboardSeq_replicate_equals (sqrt : α → α) (rand : Nat → Nat) (n : Nat) :
    ∀ s : Sim α, 0 ≤ s.a_const → s.a_const + (n : Int) ≤ INT_MAX →
      (handleKeyboardSeq sqrt
        (List.replicate n (rand, ⟨false, false, false, false, false, false, false, true⟩))
        s).a_const = s.a_const + (n : Int) := by
  induction n with
  | zero =>
    intro s _ _
    simp only [handleKeyboardSeq, List.replicate_zero, List.foldl_nil, Nat.cast_zero, add_zero]
  | succ k ih =>
    intro s h0 h1
    unfold INT_MAX at h1
    have hfold : handleKeyboardSeq sqrt
        (List.replicate (k + 1) (rand, ⟨false, false, false, false, false, false, false, true⟩))
        s = handleKeyboardSeq sqrt
        (List.replicate k (rand, ⟨false, false, false, false, false, false, false, true⟩))
        (handleKeyboard sqrt rand ⟨false, false, false, false, false, false, false, true⟩ s) :=
      rfl
    have hstep : (handleKeyboard sqrt rand
        ⟨false, false, false, false, false, false, false, true⟩ s).a_const = s.a_const + 1 := by
      rw [handleKeyboard_a_const]
      simp only [if_true, Bool.false_eq_true, if_false]
      exact wrapInt_eq_self (by omega) (by push_cast at h1; omega)
    rw [hfold, ih _ (by omega) (by unfold INT_MAX; push_cast at h1 ⊢; omega), hstep]
    push_cast
    ring

omit [LinearOrderedField α] in
/-- A flag that a fold over `0, 1, ..., n-1` can only raise is raised at the end exactly when
some step raised it, each step being looked at in the state the fold had reached. -/
theorem foldl_range_flag {σ : Type} (step : σ → Nat → σ) (flag : σ → Prop)
    (hit : σ → Nat → Prop) (hstep : ∀ s k, flag (step s k) ↔ (flag s ∨ hit s k))
    (init : σ) (h0 : ¬ flag init) (n : Nat) :
    flag ((List.range n).foldl step init) ↔
      ∃ j, j < n ∧ hit ((List.range j).foldl step init) j := by
  induction n with
  | zero =>
    simp only [List.range_zero, List.foldl_nil, Nat.not_lt_zero, false_and, exists_false,
      iff_false]
    exact h0
  | succ n ih =>
    rw [List.range_succ, List.foldl_append, List.foldl_cons, List.foldl_nil, hstep, ih]
    constructor
    · rintro (⟨j, hj, h⟩ | h)
      · exact ⟨j, Nat.lt_succ_of_lt hj, h⟩
      · exact ⟨n, Nat.lt_succ_self n, h⟩
    · rintro ⟨j, hj, h⟩
      rcases Nat.lt_succ_iff_lt_or_eq.mp hj with hlt | heq
      · exact Or.inl ⟨j, hlt, h⟩
      · subst heq
        exact Or.inr h

omit [LinearOrderedField α] in
/-- Entry `i` after writing entry `i` and then another entry `k`. -/
theorem getElem?_set_set_ne {s : List (Shape α)} {i k : Nat} {x a b : Shape α}
    (hi : s[i]? = some x) (hki : k ≠ i) : ((s.set i a).set k b)[i]? = some a := by
  obtain ⟨hlt, -⟩ := List.getElem?_eq_some_iff.mp hi
  rw [List.getElem?_set_ne hki, List.getElem?_set_self hlt]

/-- The circle-circle resolver does not touch the caller's `intersecting` flag. -/
theorem circle_handleCollision_intersecting (sqrt : α → α) (a b : Circle α) :
    (Circle.handleCollision sqrt a b).1.intersecting = a.intersecting := by
  unfold Circle.handleCollision
  simp only
  split_ifs <;> rfl

/-- The push along the axis of minimum overlap does not touch the caller's `intersecting`
flag. -/
theorem rectangle_pushApart_intersecting (overlapX overlapY : α) (a b : Rectangle α) :
    (Rectangle.pushApart overlapX overlapY a b).1.intersecting = a.intersecting := by
  unfold Rectangle.pushApart
  split_ifs <;> rfl

/-- A correction branch does not touch the caller's `intersecting` flag. -/
theorem rectangle_correct_intersecting (towards : Bool) (correction : Vector α)
    (mass otherMass massTotal : α) (a b : Rectangle α) :
    (Rectangle.correct towards correction mass otherMass massTotal a b).1.intersecting =
      a.intersecting := by
  unfold Rectangle.correct
  split_ifs <;> rfl

/-- The rectangle-rectangle resolver does not touch the caller's `intersecting` flag. -/
theorem rectangle_handleCollision_intersecting (a b : Rectangle α) :
    (Rectangle.handleCollision a b).1.intersecting = a.intersecting := by
  by_cases h : 1 / 2 * (a.size.x + b.size.x) - |a.center.x - b.center.x| > 0 ∧
      1 / 2 * (a.size.y + b.size.y) - |a.center.y - b.center.y| > 0
  · simp only [Rectangle.handleCollision, if_pos h, rectangle_correct_intersecting,
      rectangle_pushApart_intersecting]
  · simp only [Rectangle.handleCollision, if_neg h]

/-- The rectangle-circle resolver does not touch the caller's `intersecting` flag. -/
theorem rectangle_handleCollisionCircle_intersecting (sqrt : α → α) (a : Rectangle α)
    (b : Circle α) :
    (Rectangle.handleCollisionCircle sqrt a b).1.intersecting = a.intersecting := by
  unfold Rectangle.handleCollisionCircle
  simp only
  split_ifs <;> rfl

/-- One pass of the loop body of `Circle::update`: the receiver's flag is up afterwards
exactly when it was up before or the entry is another circle that the receiver intersects. -/
theorem circle_visit_flag (sqrt : α → α) (i : Nat) (s : List (Shape α)) (k : Nat) :
    ((Circle.visit sqrt i s k)[i]?.map Shape.intersecting = some true) ↔
      ((s[i]?.map Shape.intersecting = some true) ∨
        (k ≠ i ∧ ∃ self other : Circle α, s[i]? = some (Shape.circle self) ∧
          s[k]? = some (Shape.circle other) ∧ self.intersectCircle sqrt other = true)) := by
  unfold Circle.visit
  by_cases hk : k = i
  · simp only [hk, if_true, ne_eq, not_true_eq_false, false_and, or_false]
  · simp only [if_neg hk]
    split
    · rename_i self other hi hj
      by_cases ht : self.intersects sqrt (Shape.circle other) = true
      · simp only [if_pos ht]
        rw [getElem?_set_set_ne hi hk]
        simp only [Option.map_some', Shape.intersecting, circle_handleCollision_intersecting,
          true_iff]
        exact Or.inr ⟨hk, self, other, hi, hj, ht⟩
      · simp only [if_neg ht]
        constructor
        · exact Or.inl
        · rintro (h | ⟨-, self2, other2, h1, h2, h3⟩)
          · exact h
          · rw [hi] at h1
            rw [hj] at h2
            cases h1
            cases h2
            exact absurd h3 ht
    · rename_i hno
      constructor
      · exact Or.inl
      · rintro (h | ⟨-, self2, other2, h1, h2, -⟩)
        · exact h
        · exact absurd h2 (hno self2 other2 h1)

/-- One pass of the loop body of `Rectangle::update`: the receiver's flag is up afterwards
exactly when it was up before or the entry is another shape that the receiver intersects. -/
theorem rectangle_visit_flag (sqrt : α → α) (i : Nat) (s : List (Shape α)) (k : Nat) :
    ((Rectangle.visit sqrt i s k)[i]?.map Shape.intersecting = some true) ↔
      ((s[i]?.map Shape.intersecting = some true) ∨
        (k ≠ i ∧ ∃ self : Rectangle α, s[i]? = some (Shape.rectangle self) ∧
          ((∃ rect : Rectangle α, s[k]? = some (Shape.rectangle rect) ∧
              self.intersectRect rect = true) ∨
            (∃ circ : Circle α, s[k]? = some (Shape.circle circ) ∧
              self.intersectCircle circ = true)))) := by
  unfold Rectangle.visit
  by_cases hk : k = i
  · simp only [hk, if_true, ne_eq, not_true_eq_false, false_and, or_false]
  · simp only [if_neg hk]
    split
    · rename_i self rect hi hj
      by_cases ht : self.intersects (Shape.rectangle rect) = true
      · simp only [if_pos ht]
        rw [getElem?_set_set_ne hi hk]
        simp only [Option.map_some', Shape.intersecting,
          rectangle_handleCollision_intersecting, true_iff]
        exact Or.inr ⟨hk, self, hi, Or.inl ⟨rect, hj, ht⟩⟩
      · simp only [if_neg ht]
        constructor
        · exact Or.inl
        · rintro (h | ⟨-, self2, h1, ⟨rect2, h2, h3⟩ | ⟨circ2, h2, -⟩⟩)
          · exact h
          · rw [hi] at h1
            rw [hj] at h2
            cases h1
            cases h2
            exact absurd h3 ht
          · rw [hj] at h2
            cases h2
    · rename_i self circ hi hj
      by_cases ht : self.intersects (Shape.circle circ) = true
      · simp only [if_pos ht]
        rw [getElem?_set_set_ne hi hk]
        simp only [Option.map_some', Shape.intersecting,
          rectangle_handleCollisionCircle_intersecting, true_iff]
        exact Or.inr ⟨hk, self, hi, Or.inr ⟨circ, hj, ht⟩⟩
      · simp only [if_neg ht]
        constructor
        · exact Or.inl
        · rintro (h | ⟨-, self2, h1, ⟨rect2, h2, -⟩ | ⟨circ2, h2, h3⟩⟩)
          · exact h
          · rw [hj] at h2
            cases h2
          · rw [hi] at h1
            rw [hj] at h2
            cases h1
            cases h2
            exact absurd h3 ht
    · rename_i hno1 hno2
      constructor
      · exact Or.inl
      · rintro (h | ⟨-, self2, h1, ⟨rect2, h2, -⟩ | ⟨circ2, h2, -⟩⟩)
        · exact h
        · exact absurd h2 (hno1 self2 rect2 h1)
        · exact absurd h2 (hno2 self2 circ2 h1)

/-- The real square root of 25. -/
theorem real_sqrt_25 : Real.sqrt 25 = 5 := by
  rw [show (25 : ℝ) = 5 * 5 by norm_num]
  exact Real.sqrt_mul_self (by norm_num)

/-- One axis of the rectangle-rectangle resolution when the push and the first correction
follow the order of the two centers on that axis and the second correction follows a test
`t` made on the other axis: the recomputed overlap is `0` or minus the original overlap. -/
theorem axis_overlap_first_ordered (a b W o u v a1 a2 b2 a3 b3 : α) (t : Bool)
    (ho : o = W - |a - b|) (hu : 0 < u) (hv : 0 < v)
    (huv : u + v = o * (1 / 2))
    (ha1 : a1 = if a < b then a - o else a + o)
    (ha2 : a2 = if a1 < b then a1 - u else a1 + u)
    (hb2 : b2 = if a1 < b then b + v else b - v)
    (ha3 : a3 = if t = true then a2 - u else a2 + u)
    (hb3 : b3 = if t = true then b2 + v else b2 - v) :
    W - |a3 - b3| = 0 ∨ W - |a3 - b3| = -o := by
  subst ha3 hb3 ha2 hb2 ha1
  rcases abs_cases (a - b) with ⟨h1, h2⟩ | ⟨h1, h2⟩ <;> rw [h1] at ho <;>
    split_ifs <;>
    first
    | (exfalso; linarith)
    | (left; rw [abs_of_nonneg (by linarith)]; linarith)
    | (left; rw [abs_of_neg (by linarith)]; linarith)
    | (right; rw [abs_of_nonneg (by linarith)]; linarith)
    | (right; rw [abs_of_neg (by linarith)]; linarith)

/-- One axis of the rectangle-rectangle resolution when the first correction follows a test
`t` made on the other axis and the push and the second correction follow the order of the two
centers on that axis: the recomputed overlap is `0` or minus the original overlap. -/
theorem axis_overlap_second_ordered (a b W o u v a1 a2 b2 a3 b3 : α) (t : Bool)
    (ho : o = W - |a - b|) (hu : 0 < u) (hv : 0 < v)
    (huv : u + v = o * (1 / 2))
    (ha1 : a1 = if a < b then a - o else a + o)
    (ha2 : a2 = if t = true then a1 - u else a1 + u)
    (hb2 : b2 = if t = true then b + v else b - v)
    (ha3 : a3 = if a2 < b2 then a2 - u else a2 + u)
    (hb3 : b3 = if a2 < b2 then b2 + v else b2 - v) :
    W - |a3 - b3| = 0 ∨ W - |a3 - b3| = -o := by
  subst ha3 hb3 ha2 hb2 ha1
  have hab := abs_nonneg (a - b)
  rcases abs_cases (a - b) with ⟨h1, h2⟩ | ⟨h1, h2⟩ <;> rw [h1] at ho hab <;>
    split_ifs <;>
    first
    | (exfalso; linarith)
    | (left; rw [abs_of_nonneg (by linarith)]; linarith)
    | (left; rw [abs_of_neg (by linarith)]; linarith)
    | (right; rw [abs_of_nonneg (by linarith)]; linarith)
    | (right; rw [abs_of_neg (by linarith)]; linarith)

/-- Centers and sizes after a correction branch. -/
theorem rectangle_correct_proj (t : Bool) (c : Vector α) (m om mt : α) (a b : Rectangle α) :
    (Rectangle.correct t c m om mt a b).1.size = a.size ∧
    (Rectangle.correct t c m om mt a b).2.size = b.size ∧
    ((Rectangle.correct t c m om mt a b).1.center.x =
      if t = true then a.center.x - c.x * (om / mt) else a.center.x + c.x * (om / mt)) ∧
    ((Rectangle.correct t c m om mt a b).2.center.x =
      if t = true then b.center.x + c.x * (m / mt) else b.center.x - c.x * (m / mt)) ∧
    ((Rectangle.correct t c m om mt a b).1.center.y =
      if t = true then a.center.y - c.y * (om / mt) else a.center.y + c.y * (om / mt)) ∧
    ((Rectangle.correct t c m om mt a b).2.center.y =
      if t = true then b.center.y + c.y * (m / mt) else b.center.y - c.y * (m / mt)) := by
  unfold Rectangle.correct
  cases t <;> simp [Vector.sub, Vector.add, Vector.mul]

/-- Centers and sizes after the push along the x axis. -/
theorem rectangle_pushApart_x (oX oY : α) (a b : Rectangle α) (h : oX < oY) :
    (Rectangle.pushApart oX oY a b).1.size = a.size ∧
    (Rectangle.pushApart oX oY a b).2.size = b.size ∧
    ((Rectangle.pushApart oX oY a b).1.center.x =
      if a.center.x < b.center.x then a.center.x - oX else a.center.x + oX) ∧
    (Rectangle.pushApart oX oY a b).2.center.x = b.center.x := by
  unfold Rectangle.pushApart
  rw [if_pos h]
  exact ⟨rfl, rfl, rfl, rfl⟩

/-- Centers and sizes after the push along the y axis. -/
theorem rectangle_pushApart_y (oX oY : α) (a b : Rectangle α) (h : ¬ oX < oY) :
    (Rectangle.pushApart oX oY a b).1.size = a.size ∧
    (Rectangle.pushApart oX oY a b).2.size = b.size ∧
    ((Rectangle.pushApart oX oY a b).1.center.y =
      if a.center.y < b.center.y then a.center.y - oY else a.center.y + oY) ∧
    (Rectangle.pushApart oX oY a b).2.center.y = b.center.y := by
  unfold Rectangle.pushApart
  rw [if_neg h]
  exact ⟨rfl, rfl, rfl, rfl⟩

/-- Sizes after the push, whichever axis it takes. -/
theorem rectangle_pushApart_size (oX oY : α) (a b : Rectangle α) :
    (Rectangle.pushApart oX oY a b).1.size = a.size ∧
    (Rectangle.pushApart oX oY a b).2.size = b.size := by
  unfold Rectangle.pushApart
  split_ifs <;> exact ⟨rfl, rfl⟩

/-- The rectangle-rectangle resolver keeps both sizes. -/
theorem rectangle_handleCollision_size (a b : Rectangle α) :
    (a.handleCollision b).1.size = a.size ∧ (a.handleCollision b).2.size = b.size := by
  by_cases h : 1 / 2 * (a.size.x + b.size.x) - |a.center.x - b.center.x| > 0 ∧
      1 / 2 * (a.size.y + b.size.y) - |a.center.y - b.center.y| > 0
  · simp only [Rectangle.handleCollision, if_pos h, (rectangle_correct_proj _ _ _ _ _ _ _).1,
      (rectangle_correct_proj _ _ _ _ _ _ _).2.1, (rectangle_pushApart_size _ _ _ _).1,
      (rectangle_pushApart_size _ _ _ _).2, and_self]
  · simp only [Rectangle.handleCollision, if_neg h, and_self]

/-- Without a positive overlap on both axes the rectangle-rectangle resolver returns the pair
as it is. -/
theorem rectangle_handleCollision_no_overlap (a b : Rectangle α)
    (h : ¬ (1 / 2 * (a.size.x + b.size.x) - |a.center.x - b.center.x| > 0 ∧
      1 / 2 * (a.size.y + b.size.y) - |a.center.y - b.center.y| > 0)) :
    a.handleCollision b = (a, b) := by
  simp only [Rectangle.handleCollision, if_neg h]

/-- The two mass-weighted shares of a correction add up to the correction. -/
theorem mass_shares (k m om : α) (hm : 0 < m) (hom : 0 < om) :
    k * (om / (m + om)) + k * (m / (m + om)) = k := by
  have h : m + om ≠ 0 := (add_pos hm hom).ne.symm
  field_simp
  ring

/-- From every scale `2 <= s <= INT_MAX` the `=` branch undoes the `-` branch: the scale and
every stored acceleration are back. -/
theorem keyEquals_keyMinus_restores (s : Sim α) (h1 : 2 ≤ s.a_const)
    (h2 : s.a_const ≤ INT_MAX) : keyEquals (keyMinus s) = s := by
  unfold INT_MAX at h2
  have hpos : s.a_const > 0 := by omega
  have hpos1 : s.a_const - 1 > 0 := by omega
  have hw1 : wrapInt (s.a_const - 1) = s.a_const - 1 := wrapInt_eq_self (by omega) (by omega)
  have hw2 : wrapInt (s.a_const - 1 + 1) = s.a_const := by
    rw [wrapInt_eq_self (by omega) (by omega)]
    omega
  have hne : (s.a_const : α) ≠ 0 := Int.cast_ne_zero.mpr (by omega)
  have hne1 : ((s.a_const - 1 : Int) : α) ≠ 0 := Int.cast_ne_zero.mpr (by omega)
  obtain ⟨shapes, a, a_const⟩ := s
  simp only [keyEquals, keyMinus, if_pos hpos, hw1, if_pos hpos1, hw2, List.map_map,
    Sim.mk.injEq, and_true]
  simp only at hne hne1
  conv_rhs => rw [← List.map_id shapes]
  apply List.map_congr_left
  intro shape _
  simp only [Function.comp, shape_setAcceleration_twice, shape_acceleration_setAcceleration,
    id]
  have hv : (((shape.acceleration.div (a_const : α)).mul ((a_const - 1 : Int) : α)).div
      ((a_const - 1 : Int) : α)).mul (a_const : α) = shape.acceleration := by
    have hne1' : (a_const : α) - 1 ≠ 0 := by
      have h := hne1
      push_cast at h
      exact h
    apply vector_ext
    · simp only [Vector.mul, Vector.div]
      push_cast
      field_simp
      ring
    · simp only [Vector.mul, Vector.div]
      push_cast
      field_simp
      ring
  rw [hv, shape_setAcceleration_self]

/-- Rectangle-rectangle resolution over exact arithmetic.  For two rectangles with positive
sizes whose overlaps `overlap = 0.5 * (sizeA + sizeB) - |centerA - centerB|` are both
positive, one call of `Rectangle.handleCollision` keeps the sizes and leaves, on the axis of
minimum overlap (x if `overlapX < overlapY`, else y), a recomputed overlap that is `0` or
minus the original overlap, so a second call returns the pair unchanged.  The result rests on
exact cancellation in a field; the source computes every step in `float`, where the sums
round, and the statement does not carry over to the rounded values. -/
theorem rect_rect_separates_exact (A B : Rectangle α) (overlapX overlapY : α)
    (hX : overlapX = 1 / 2 * (A.size.x + B.size.x) - |A.center.x - B.center.x|)
    (hY : overlapY = 1 / 2 * (A.size.y + B.size.y) - |A.center.y - B.center.y|)
    (hAx : 0 < A.size.x) (hAy : 0 < A.size.y) (hBx : 0 < B.size.x) (hBy : 0 < B.size.y)
    (h1 : 0 < overlapX) (h2 : 0 < overlapY) :
    (overlapX < overlapY →
      (1 / 2 * (A.size.x + B.size.x) -
          |(A.handleCollision B).1.center.x - (A.handleCollision B).2.center.x| = 0 ∨
        1 / 2 * (A.size.x + B.size.x) -
          |(A.handleCollision B).1.center.x - (A.handleCollision B).2.center.x| =
          -overlapX)) ∧
    (¬ overlapX < overlapY →
      (1 / 2 * (A.size.y + B.size.y) -
          |(A.handleCollision B).1.center.y - (A.handleCollision B).2.center.y| = 0 ∨
        1 / 2 * (A.size.y + B.size.y) -
          |(A.handleCollision B).1.center.y - (A.handleCollision B).2.center.y| =
          -overlapY)) ∧
    (A.handleCollision B).1.size = A.size ∧ (A.handleCollision B).2.size = B.size ∧
    Rectangle.handleCollision (A.handleCollision B).1 (A.handleCollision B).2 =
      ((A.handleCollision B).1, (A.handleCollision B).2) := by
  have hmA : 0 < A.size.x * A.size.y := mul_pos hAx hAy
  have hmB : 0 < B.size.x * B.size.y := mul_pos hBx hBy
  have hcond : overlapX > 0 ∧ overlapY > 0 := ⟨h1, h2⟩
  obtain ⟨hs1, hs2⟩ := rectangle_handleCollision_size A B
  obtain ⟨p, hp⟩ : ∃ p, p = Rectangle.pushApart overlapX overlapY A B := ⟨_, rfl⟩
  have hxcase : overlapX < overlapY →
      (1 / 2 * (A.size.x + B.size.x) -
          |(A.handleCollision B).1.center.x - (A.handleCollision B).2.center.x| = 0 ∨
        1 / 2 * (A.size.x + B.size.x) -
          |(A.handleCollision B).1.center.x - (A.handleCollision B).2.center.x| =
          -overlapX) := by
    intro hlt
    obtain ⟨c, hc⟩ : ∃ c : Vector α, c = (⟨overlapX, 0⟩ : Vector α).mul (1 / 2) := ⟨_, rfl⟩
    obtain ⟨q, hq⟩ : ∃ q, q = Rectangle.correct (decide (p.1.center.x < p.2.center.x)) c
      (A.size.x * A.size.y) (B.size.x * B.size.y)
      (A.size.x * A.size.y + B.size.x * B.size.y) p.1 p.2 := ⟨_, rfl⟩
    have hres : A.handleCollision B =
        Rectangle.correct (decide (q.1.center.y < q.2.center.y)) c
          (A.size.x * A.size.y) (B.size.x * B.size.y)
          (A.size.x * A.size.y + B.size.x * B.size.y) q.1 q.2 := by
      subst hq hc hp
      simp only [Rectangle.handleCollision, ← hX, ← hY, if_pos hcond, if_pos hlt]
    obtain ⟨-, -, hp3, hp4⟩ := rectangle_pushApart_x overlapX overlapY A B hlt
    rw [← hp] at hp3 hp4
    obtain ⟨-, -, hq3, hq4, -, -⟩ := rectangle_correct_proj
      (decide (p.1.center.x < p.2.center.x)) c (A.size.x * A.size.y) (B.size.x * B.size.y)
      (A.size.x * A.size.y + B.size.x * B.size.y) p.1 p.2
    rw [← hq] at hq3 hq4
    simp only [decide_eq_true_eq, hp4] at hq3 hq4
    obtain ⟨-, -, hr3, hr4, -, -⟩ := rectangle_correct_proj
      (decide (q.1.center.y < q.2.center.y)) c (A.size.x * A.size.y) (B.size.x * B.size.y)
      (A.size.x * A.size.y + B.size.x * B.size.y) q.1 q.2
    rw [← hres] at hr3 hr4
    have hcx : c.x = overlapX * (1 / 2) := by rw [hc]; rfl
    have hk : 0 < c.x := by rw [hcx]; exact mul_pos h1 (by norm_num)
    exact axis_overlap_first_ordered A.center.x B.center.x _ overlapX
      (c.x * (B.size.x * B.size.y / (A.size.x * A.size.y + B.size.x * B.size.y)))
      (c.x * (A.size.x * A.size.y / (A.size.x * A.size.y + B.size.x * B.size.y)))
      p.1.center.x q.1.center.x q.2.center.x _ _ (decide (q.1.center.y < q.2.center.y))
      hX (mul_pos hk (div_pos hmB (add_pos hmA hmB)))
      (mul_pos hk (div_pos hmA (add_pos hmA hmB)))
      (by rw [mass_shares _ _ _ hmA hmB, hcx]) hp3 hq3 hq4 hr3 hr4
  have hycase : ¬ overlapX < overlapY →
      (1 / 2 * (A.size.y + B.size.y) -
          |(A.handleCollision B).1.center.y - (A.handleCollision B).2.center.y| = 0 ∨
        1 / 2 * (A.size.y + B.size.y) -
          |(A.handleCollision B).1.center.y - (A.handleCollision B).2.center.y| =
          -overlapY) := by
    intro hlt
    obtain ⟨c, hc⟩ : ∃ c : Vector α, c = (⟨0, overlapY⟩ : Vector α).mul (1 / 2) := ⟨_, rfl⟩
    obtain ⟨q, hq⟩ : ∃ q, q = Rectangle.correct (decide (p.1.center.x < p.2.center.x)) c
      (A.size.x * A.size.y) (B.size.x * B.size.y)
      (A.size.x * A.size.y + B.size.x * B.size.y) p.1 p.2 := ⟨_, rfl⟩
    have hres : A.handleCollision B =
        Rectangle.correct (decide (q.1.center.y < q.2.center.y)) c
          (A.size.x * A.size.y) (B.size.x * B.size.y)
          (A.size.x * A.size.y + B.size.x * B.size.y) q.1 q.2 := by
      subst hq hc hp
      simp only [Rectangle.handleCollision, ← hX, ← hY, if_pos hcond, if_neg hlt]
    obtain ⟨-, -, hp3, hp4⟩ := rectangle_pushApart_y overlapX overlapY A B hlt
    rw [← hp] at hp3 hp4
    obtain ⟨-, -, -, -, hq3, hq4⟩ := rectangle_correct_proj
      (decide (p.1.center.x < p.2.center.x)) c (A.size.x * A.size.y) (B.size.x * B.size.y)
      (A.size.x * A.size.y + B.size.x * B.size.y) p.1 p.2
    rw [← hq] at hq3 hq4
    rw [hp4] at hq4
    obtain ⟨-, -, -, -, hr3, hr4⟩ := rectangle_correct_proj
      (decide (q.1.center.y < q.2.center.y)) c (A.size.x * A.size.y) (B.size.x * B.size.y)
      (A.size.x * A.size.y + B.size.x * B.size.y) q.1 q.2
    rw [← hres] at hr3 hr4
    simp only [decide_eq_true_eq] at hr3 hr4
    have hcy : c.y = overlapY * (1 / 2) := by rw [hc]; rfl
    have hk : 0 < c.y := by rw [hcy]; exact mul_pos h2 (by norm_num)
    exact axis_overlap_second_ordered A.center.y B.center.y _ overlapY
      (c.y * (B.size.x * B.size.y / (A.size.x * A.size.y + B.size.x * B.size.y)))
      (c.y * (A.size.x * A.size.y / (A.size.x * A.size.y + B.size.x * B.size.y)))
      p.1.center.y q.1.center.y q.2.center.y _ _ (decide (p.1.center.x < p.2.center.x))
      hY (mul_pos hk (div_pos hmB (add_pos hmA hmB)))
      (mul_pos hk (div_pos hmA (add_pos hmA hmB)))
      (by rw [mass_shares _ _ _ hmA hmB, hcy]) hp3 hq3 hq4 hr3 hr4
  refine ⟨hxcase, hycase, hs1, hs2, ?_⟩
  apply rectangle_handleCollision_no_overlap
  rw [hs1, hs2]
  rintro ⟨g1, g2⟩
  by_cases hlt : overlapX < overlapY
  · rcases hxcase hlt with h | h
    · rw [h] at g1
      exact lt_irrefl _ g1
    · rw [h] at g1
      linarith
  · rcases hycase hlt with h | h
    · rw [h] at g2
      exact lt_irrefl _ g2
    · rw [h] at g2
      linarith

end Lemmas

/-! ## The claims -/

section Claims

variable {α : Type} [LinearOrderedField α]

/-- C1: `Circle::intersectCircle` is symmetric.  For every pair of circles `A`, `B` (any
centers, any radii), `A.intersectCircle(B) = B.intersectCircle(A)`, over every linearly ordered
field of scalars (in particular the reals) and whatever `sqrt` computes. -/
theorem intersectCircle_symm (sqrt : α → α) (A B : Circle α) :
    A.intersectCircle sqrt B = B.intersectCircle sqrt A := by
  have h : (A.center.x - B.center.x) * (A.center.x - B.center.x) +
      (A.center.y - B.center.y) * (A.center.y - B.center.y) =
      (B.center.x - A.center.x) * (B.center.x - A.center.x) +
      (B.center.y - A.center.y) * (B.center.y - A.center.y) := by ring
  simp only [Circle.intersectCircle, Vector.length, Vector.sub, h, add_comm A.radius]

/-- C2: `Rectangle::intersectRect` is symmetric for every pair of rectangles, and every
rectangle whose size components are non-negative intersects itself. -/
theorem intersectRect_symm_and_self :
    (∀ A B : Rectangle α, A.intersectRect B = B.intersectRect A) ∧
    (∀ A : Rectangle α, 0 ≤ A.size.x → 0 ≤ A.size.y → A.intersectRect A = true) := by
  constructor
  · intro A B
    rw [Bool.eq_iff_iff]
    simp only [Rectangle.intersectRect, Bool.not_eq_true', Bool.or_eq_false_iff,
      decide_eq_false_iff_not, not_lt, gt_iff_lt]
    tauto
  · intro A hx hy
    simp only [Rectangle.intersectRect, Bool.not_eq_true', Bool.or_eq_false_iff,
      decide_eq_false_iff_not, not_lt, gt_iff_lt]
    refine ⟨⟨⟨?_, ?_⟩, ?_⟩, ?_⟩ <;> linarith

/-- Instance of C2 on the rationals: a 40x60 rectangle centred at (100, 200) intersects
itself. -/
theorem intersectRect_symm_and_self_witness :
    (0 : ℚ) ≤ 40 ∧ (0 : ℚ) ≤ 60 ∧
    Rectangle.intersectRect
      (⟨⟨100, 200⟩, ⟨0, 0⟩, ⟨0, 0⟩, ⟨0, 0, 0⟩, false, ⟨40, 60⟩⟩ : Rectangle ℚ)
      ⟨⟨100, 200⟩, ⟨0, 0⟩, ⟨0, 0⟩, ⟨0, 0, 0⟩, false, ⟨40, 60⟩⟩ = true :=
  ⟨by norm_num, by norm_num,
    intersectRect_symm_and_self.2 _ (by norm_num) (by norm_num)⟩

/-- C3: `Vector::normal`.  For every vector other than `(0, 0)` the result has length exactly
`1` and is the input divided by its length; for the zero vector the guard `len > 0`, under
which alone the source divides, is false and the result is `(0, 0)`. -/
theorem normal_spec (sqrt : α → α) (hs : IsSqrt sqrt) :
    (∀ v : Vector α, (v.x ≠ 0 ∨ v.y ≠ 0) →
      (v.normal sqrt).length sqrt = 1 ∧ v.normal sqrt = v.div (v.length sqrt)) ∧
    (¬ (0 < (⟨0, 0⟩ : Vector α).length sqrt) ∧
      (⟨0, 0⟩ : Vector α).normal sqrt = ⟨0, 0⟩) := by
  constructor
  · intro v hv
    have hpos : 0 < v.x * v.x + v.y * v.y := by
      rcases hv with h | h
      · have := mul_self_pos.mpr h
        nlinarith [mul_self_nonneg v.y]
      · have := mul_self_pos.mpr h
        nlinarith [mul_self_nonneg v.x]
    obtain ⟨h0, h1⟩ := hs _ hpos.le
    have hlen : 0 < sqrt (v.x * v.x + v.y * v.y) := by
      rcases h0.lt_or_eq with h | h
      · exact h
      · rw [← h] at h1
        linarith
    have hne : sqrt (v.x * v.x + v.y * v.y) ≠ 0 := hlen.ne.symm
    have hnormal : v.normal sqrt = v.div (v.length sqrt) := by
      simp only [Vector.normal, Vector.length, Vector.div, gt_iff_lt, hlen, if_true]
    refine ⟨?_, hnormal⟩
    rw [hnormal]
    simp only [Vector.length, Vector.div]
    have hone : v.x / sqrt (v.x * v.x + v.y * v.y) * (v.x / sqrt (v.x * v.x + v.y * v.y)) +
        v.y / sqrt (v.x * v.x + v.y * v.y) * (v.y / sqrt (v.x * v.x + v.y * v.y)) = 1 * 1 := by
      field_simp
      linarith
    rw [hone]
    exact isSqrt_sqrt_mul_self hs zero_le_one
  · have hz : sqrt ((0 : α) * 0 + 0 * 0) = 0 := by
      have := isSqrt_sqrt_mul_self hs (le_refl (0 : α))
      simpa using this
    constructor
    · simp only [Vector.length, hz, lt_irrefl, not_false_eq_true]
    · simp only [Vector.normal, Vector.length, hz, gt_iff_lt, lt_irrefl, if_false]

/-- Instance of C3 on the reals: the normal of `(3, 4)` has length `1`. -/
theorem normal_spec_witness :
    IsSqrt Real.sqrt ∧
    ((⟨3, 4⟩ : Vector ℝ).normal Real.sqrt).length Real.sqrt = 1 :=
  ⟨isSqrt_real, ((normal_spec Real.sqrt isSqrt_real).1 ⟨3, 4⟩ (Or.inl (by norm_num))).1⟩

/-- C5, as the spec states it, fails: a 40x40 rectangle centred at (100, 100) holds the
center (110, 95) of a circle of radius 10 inside its box, yet `Rectangle::intersectCircle`
returns `true`, and `Rectangle::update` (with `dt = 0`, on the collection of the two shapes)
runs the resolver: the rectangle ends flagged `intersecting` and displaced by `1/1600`. -/
theorem rect_contains_center_counterexample :
    Rectangle.inBox
      (⟨⟨100, 100⟩, ⟨0, 0⟩, ⟨0, 0⟩, ⟨0, 0, 0⟩, false, ⟨40, 40⟩⟩ : Rectangle ℝ) ⟨110, 95⟩ ∧
    Rectangle.intersectCircle
      (⟨⟨100, 100⟩, ⟨0, 0⟩, ⟨0, 0⟩, ⟨0, 0, 0⟩, false, ⟨40, 40⟩⟩ : Rectangle ℝ)
      (⟨⟨110, 95⟩, ⟨0, 0⟩, ⟨0, 0⟩, ⟨0, 0, 0⟩, false, 10⟩ : Circle ℝ) = true ∧
    Rectangle.update Real.sqrt 0
      [Shape.rectangle ⟨⟨100, 100⟩, ⟨0, 0⟩, ⟨0, 0⟩, ⟨0, 0, 0⟩, false, ⟨40, 40⟩⟩,
       Shape.circle ⟨⟨110, 95⟩, ⟨0, 0⟩, ⟨0, 0⟩, ⟨0, 0, 0⟩, false, 10⟩] 0 =
      [Shape.rectangle ⟨⟨100 - 1 / 1600, 100⟩, ⟨0, 0⟩, ⟨0, 0⟩, ⟨0, 0, 0⟩, true, ⟨40, 40⟩⟩,
       Shape.circle ⟨⟨110 + 1 / 100, 95⟩, ⟨0, 0⟩, ⟨0, 0⟩, ⟨0, 0, 0⟩, false, 10⟩] := by
  refine ⟨?_, ?_, ?_⟩
  · simp only [Rectangle.inBox]
    norm_num
  · simp only [Rectangle.intersectCircle, clamp]
    norm_num
  · simp only [Rectangle.update, Rectangle.visit, Rectangle.updateBody, Rectangle.integrate,
      Rectangle.bounceX, Rectangle.bounceY, Rectangle.intersects, Rectangle.intersectCircle,
      Rectangle.handleCollisionCircle, clamp, Vector.sub, Vector.add, Vector.mul, Vector.div,
      Vector.dot, Vector.normal, Vector.length, Vector.ofScalar, List.range, List.range.loop,
      List.foldl, List.getElem?_cons_zero, List.getElem?_cons_succ, List.set_cons_zero,
      List.set_cons_succ, List.length_cons, List.length_nil, List.length_set]
    norm_num

/-- C5, amended: for a rectangle of size 40x40 and a circle with positive radius whose center
lies inside the rectangle's box, `Rectangle::intersectCircle` returns `true`, so the loop of
`Rectangle::update`, on reaching that circle, sets `intersecting` and invokes the
rectangle-circle resolver on the pair; in particular `Rectangle::update` on the collection of
the two shapes returns what the resolver makes of the integrated rectangle and the circle. -/
theorem rect_contains_center (sqrt : α → α) (r : Rectangle α) (c : Circle α)
    (_ : r.size = ⟨40, 40⟩) (hr : 0 < c.radius) (hin : r.inBox c.center) :
    r.intersectCircle c = true ∧
    (∀ (shapes : List (Shape α)) (i j : Nat),
      shapes[i]? = some (Shape.rectangle r) → shapes[j]? = some (Shape.circle c) → j ≠ i →
      Rectangle.visit sqrt i shapes j =
        (shapes.set i (Shape.rectangle
            (Rectangle.handleCollisionCircle sqrt { r with intersecting := true } c).1)).set j
          (Shape.circle
            (Rectangle.handleCollisionCircle sqrt { r with intersecting := true } c).2)) ∧
    (∀ (r0 : Rectangle α) (dt : α), r0.updateBody dt = r →
      Rectangle.update sqrt dt [Shape.rectangle r0, Shape.circle c] 0 =
        [Shape.rectangle
          (Rectangle.handleCollisionCircle sqrt { r with intersecting := true } c).1,
         Shape.circle
          (Rectangle.handleCollisionCircle sqrt { r with intersecting := true } c).2]) := by
  obtain ⟨h1, h2, h3, h4⟩ := hin
  have hX : clamp c.center.x (r.center.x - r.size.x / 2) (r.center.x + r.size.x / 2) =
      c.center.x := by
    unfold clamp
    rw [if_neg (not_lt.mpr h1), if_neg (not_lt.mpr h2)]
  have hY : clamp c.center.y (r.center.y - r.size.y / 2) (r.center.y + r.size.y / 2) =
      c.center.y := by
    unfold clamp
    rw [if_neg (not_lt.mpr h3), if_neg (not_lt.mpr h4)]
  have hint : r.intersectCircle c = true := by
    simp only [Rectangle.intersectCircle, hX, hY, sub_self, mul_zero, add_zero,
      decide_eq_true_eq]
    exact mul_pos hr hr
  have hvisit : ∀ (shapes : List (Shape α)) (i j : Nat),
      shapes[i]? = some (Shape.rectangle r) → shapes[j]? = some (Shape.circle c) → j ≠ i →
      Rectangle.visit sqrt i shapes j =
        (shapes.set i (Shape.rectangle
            (Rectangle.handleCollisionCircle sqrt { r with intersecting := true } c).1)).set j
          (Shape.circle
            (Rectangle.handleCollisionCircle sqrt { r with intersecting := true } c).2) := by
    intro shapes i j hi hj hij
    simp only [Rectangle.visit, if_neg hij, hi, hj, Rectangle.intersects]
    rw [if_pos hint]
  refine ⟨hint, hvisit, ?_⟩
  intro r0 dt h0
  have hskip : Rectangle.visit sqrt 0 [Shape.rectangle r, Shape.circle c] 0 =
      [Shape.rectangle r, Shape.circle c] := by
    simp only [Rectangle.visit, if_true]
  simp only [Rectangle.update, List.getElem?_cons_zero, List.set_cons_zero, List.length_cons,
    List.length_nil, List.range, List.range.loop, List.foldl, h0, hskip]
  rw [hvisit [Shape.rectangle r, Shape.circle c] 0 1 rfl rfl (by decide)]
  rfl

/-- Instance of the amended C5 on the reals: the rectangle and circle of the counterexample. -/
theorem rect_contains_center_witness :
    Rectangle.intersectCircle
      (⟨⟨100, 100⟩, ⟨0, 0⟩, ⟨0, 0⟩, ⟨0, 0, 0⟩, false, ⟨40, 40⟩⟩ : Rectangle ℝ)
      (⟨⟨110, 95⟩, ⟨0, 0⟩, ⟨0, 0⟩, ⟨0, 0, 0⟩, false, 10⟩ : Circle ℝ) = true :=
  (rect_contains_center Real.sqrt
    (⟨⟨100, 100⟩, ⟨0, 0⟩, ⟨0, 0⟩, ⟨0, 0, 0⟩, false, ⟨40, 40⟩⟩ : Rectangle ℝ)
    (⟨⟨110, 95⟩, ⟨0, 0⟩, ⟨0, 0⟩, ⟨0, 0, 0⟩, false, 10⟩ : Circle ℝ)
    rfl (by norm_num) (by simp only [Rectangle.inBox]; norm_num)).1

/-- C6: `Circle::intersects` returns `false` for every `Rectangle` opponent, whatever the
geometry, even for a pair on which `Rectangle::intersects` returns `true`; for a `Circle`
opponent it equals `Circle::intersectCircle`; `Rectangle::intersects` equals `intersectCircle`
for a `Circle` opponent and `intersectRect` for a `Rectangle` opponent. -/
theorem intersects_dispatch (sqrt : α → α) :
    (∀ (c : Circle α) (r : Rectangle α), c.intersects sqrt (Shape.rectangle r) = false) ∧
    (∃ (c : Circle α) (r : Rectangle α),
      r.intersects (Shape.circle c) = true ∧ c.intersects sqrt (Shape.rectangle r) = false) ∧
    (∀ c o : Circle α, c.intersects sqrt (Shape.circle o) = c.intersectCircle sqrt o) ∧
    (∀ (r : Rectangle α) (c : Circle α),
      r.intersects (Shape.circle c) = r.intersectCircle c) ∧
    (∀ r o : Rectangle α, r.intersects (Shape.rectangle o) = r.intersectRect o) := by
  refine ⟨fun _ _ => rfl, ?_, fun _ _ => rfl, fun _ _ => rfl, fun _ _ => rfl⟩
  refine ⟨⟨⟨0, 0⟩, ⟨0, 0⟩, ⟨0, 0⟩, ⟨0, 0, 0⟩, false, 1⟩,
    ⟨⟨0, 0⟩, ⟨0, 0⟩, ⟨0, 0⟩, ⟨0, 0, 0⟩, false, ⟨40, 40⟩⟩, ?_, rfl⟩
  simp only [Rectangle.intersects, Rectangle.intersectCircle, clamp]
  norm_num

/-- C7: head-on circle collision.  For two circles of radius 20 centred at `(x, y)` and
`(x + 35, y)` with velocities `(v, 0)` and `(-v, 0)`, `v > 0`, one call of
`Circle::handleCollision` on the first with the second as argument makes the caller's velocity
`(v - 0.9 * 1.9 * v, 0) = (-0.71 * v, 0)` and the other's `(-v + 1.9 * v, 0) = (0.9 * v, 0)`:
both x-velocities change sign and both y-velocities stay `0`. -/
theorem head_on_collision (sqrt : α → α) (hs : IsSqrt sqrt) (A B : Circle α) (x y v : α)
    (hv : 0 < v)
    (hAc : A.center = ⟨x, y⟩) (hBc : B.center = ⟨x + 35, y⟩)
    (hAr : A.radius = 20) (hBr : B.radius = 20)
    (hAv : A.velocity = ⟨v, 0⟩) (hBv : B.velocity = ⟨-v, 0⟩) :
    (Circle.handleCollision sqrt A B).1.velocity = ⟨v - 9 / 10 * (19 / 10) * v, 0⟩ ∧
    (Circle.handleCollision sqrt A B).2.velocity = ⟨-v + 19 / 10 * v, 0⟩ ∧
    v - 9 / 10 * (19 / 10) * v = -(71 / 100) * v ∧
    -v + 19 / 10 * v = 9 / 10 * v ∧
    (Circle.handleCollision sqrt A B).1.velocity.x < 0 ∧
    0 < (Circle.handleCollision sqrt A B).2.velocity.x := by
  have hlen : sqrt ((x + 35 - x) * (x + 35 - x) + (y - y) * (y - y)) = 35 := by
    have h : (x + 35 - x) * (x + 35 - x) + (y - y) * (y - y) = (35 : α) * 35 := by ring
    rw [h]
    exact isSqrt_sqrt_mul_self hs (by norm_num)
  have hnormal : (B.center.sub A.center).normal sqrt = ⟨1, 0⟩ := by
    simp only [Vector.normal, Vector.length, Vector.sub, hAc, hBc, hlen]
    norm_num
  have hvan2 : ¬ ((v - -v) * 1 + (0 - 0) * 0 < 0) := by
    have h : (v - -v) * 1 + (0 - 0) * 0 = 2 * v := by ring
    rw [h]
    linarith
  have h1 : (Circle.handleCollision sqrt A B).1.velocity = ⟨v - 9 / 10 * (19 / 10) * v, 0⟩ := by
    simp only [Circle.handleCollision, hnormal]
    simp only [hAv, hBv, hAr, hBr, Vector.sub, Vector.dot, Vector.mul, Vector.div, Vector.add,
      if_neg hvan2, Vector.mk.injEq]
    constructor
    · field_simp
      ring
    · simp
  have h2 : (Circle.handleCollision sqrt A B).2.velocity = ⟨-v + 19 / 10 * v, 0⟩ := by
    simp only [Circle.handleCollision, hnormal]
    simp only [hAv, hBv, hAr, hBr, Vector.sub, Vector.dot, Vector.mul, Vector.div, Vector.add,
      if_neg hvan2, Vector.mk.injEq]
    constructor
    · field_simp
      ring
    · simp
  refine ⟨h1, h2, by ring, by ring, ?_, ?_⟩
  · rw [h1]
    show v - 9 / 10 * (19 / 10) * v < 0
    linarith
  · rw [h2]
    show 0 < -v + 19 / 10 * v
    linarith

/-- Instance of C7 on the reals: centers `(100, 300)` and `(135, 300)`, speed `10`; the
caller leaves with x-velocity `-7.1`. -/
theorem head_on_collision_witness :
    IsSqrt Real.sqrt ∧ (0 : ℝ) < 10 ∧
    (Circle.handleCollision Real.sqrt
      (⟨⟨100, 300⟩, ⟨0, -200⟩, ⟨10, 0⟩, ⟨0, 0, 0⟩, true, 20⟩ : Circle ℝ)
      (⟨⟨100 + 35, 300⟩, ⟨0, -200⟩, ⟨-10, 0⟩, ⟨0, 0, 0⟩, false, 20⟩ : Circle ℝ)).1.velocity =
      ⟨10 - 9 / 10 * (19 / 10) * 10, 0⟩ :=
  ⟨isSqrt_real, by norm_num,
    (head_on_collision Real.sqrt isSqrt_real
      (⟨⟨100, 300⟩, ⟨0, -200⟩, ⟨10, 0⟩, ⟨0, 0, 0⟩, true, 20⟩ : Circle ℝ)
      (⟨⟨100 + 35, 300⟩, ⟨0, -200⟩, ⟨-10, 0⟩, ⟨0, 0, 0⟩, false, 20⟩ : Circle ℝ)
      100 300 10 (by norm_num) rfl rfl rfl rfl rfl rfl).1⟩

/-- C8: wall bounce on the x axis for a circle updated against a collection that holds no
other shape.  With `v1 = velocity - acceleration * dt` and `c1 = center + v1 * dt`: if
`c1.x - radius < 0` or `c1.x + radius > 1000` the resulting `velocity.x` is `-0.9 * v1.x`;
otherwise `velocity.x = v1.x` and `center.x = c1.x`.  In particular a circle with
`center.x = radius <= 500`, zero velocity and zero acceleration keeps `center.x` and
`velocity.x`. -/
theorem circle_wall_bounce_x (sqrt : α → α) (dt : α) (c : Circle α) (v1 c1 : Vector α)
    (hv1 : v1 = c.velocity.sub (c.acceleration.mul dt)) (hc1 : c1 = c.center.add (v1.mul dt)) :
    ∃ c' : Circle α, Circle.update sqrt dt [Shape.circle c] 0 = [Shape.circle c'] ∧
      ((c1.x - c.radius < 0 ∨ c1.x + c.radius > 1000) → c'.velocity.x = -(9 / 10) * v1.x) ∧
      (¬ (c1.x - c.radius < 0 ∨ c1.x + c.radius > 1000) →
        c'.velocity.x = v1.x ∧ c'.center.x = c1.x) ∧
      (c.center.x = c.radius → c.radius ≤ 500 → c.velocity = ⟨0, 0⟩ → c.acceleration = ⟨0, 0⟩ →
        c'.center.x = c.center.x ∧ c'.velocity.x = c.velocity.x) := by
  refine ⟨c.updateBody dt, circle_update_singleton sqrt dt c, ?_, ?_, ?_⟩
  · intro h
    subst hc1 hv1
    simp only [Circle.updateBody, Circle.bounceY, Circle.bounceX, Circle.integrate]
    rw [if_pos h]
    split_ifs <;> simp only <;> ring
  · intro h
    subst hc1 hv1
    simp only [Circle.updateBody, Circle.bounceY, Circle.bounceX, Circle.integrate]
    rw [if_neg h]
    split_ifs <;> exact ⟨rfl, rfl⟩
  · intro hx hr hv ha
    have hno : ¬ ((c.integrate dt).center.x - (c.integrate dt).radius < 0 ∨
        (c.integrate dt).center.x + (c.integrate dt).radius > 1000) := by
      simp only [Circle.integrate, Vector.add, Vector.sub, Vector.mul, hv, ha, hx]
      intro h
      rcases h with h | h
      · have : c.radius + (0 - 0 * dt) * dt - c.radius = 0 := by ring
        linarith
      · have : c.radius + (0 - 0 * dt) * dt + c.radius = 2 * c.radius := by ring
        linarith
    simp only [Circle.updateBody, Circle.bounceY, Circle.bounceX]
    rw [if_neg hno]
    have hcx : (c.integrate dt).center.x = c.center.x := by
      simp only [Circle.integrate, Vector.add, Vector.sub, Vector.mul, hv, ha]
      ring
    have hvx : (c.integrate dt).velocity.x = c.velocity.x := by
      simp only [Circle.integrate, Vector.add, Vector.sub, Vector.mul, hv, ha]
      ring
    split_ifs <;> exact ⟨hcx, hvx⟩

/-- Instance of C8 on the reals: a circle of radius 20 at `(15, 500)` moving left at
speed 3, updated with `dt = 1`, crosses the left wall and leaves with x-velocity `2.7`. -/
theorem circle_wall_bounce_x_witness :
    ∃ c' : Circle ℝ,
      Circle.update Real.sqrt 1
        [Shape.circle ⟨⟨15, 500⟩, ⟨0, 0⟩, ⟨-3, 0⟩, ⟨0, 0, 0⟩, false, 20⟩] 0 =
        [Shape.circle c'] ∧
      c'.velocity.x = -(9 / 10) * (-3) := by
  obtain ⟨c', h1, h2, -, -⟩ := circle_wall_bounce_x Real.sqrt 1
    ⟨⟨15, 500⟩, ⟨0, 0⟩, ⟨-3, 0⟩, ⟨0, 0, 0⟩, false, 20⟩ ⟨-3, 0⟩ ⟨12, 500⟩
    (by simp only [Vector.sub, Vector.mul]; norm_num)
    (by simp only [Vector.add, Vector.mul]; norm_num)
  exact ⟨c', h1, h2 (Or.inl (by norm_num))⟩

/-- C9: arena containment after one update against a collection that holds no other shape.
For every circle with `0 < radius <= 460`, and for every rectangle with `0 < size.x <= 1000`
and `0 < size.y <= 920`, every prior center, velocity and acceleration and every `dt`, the
updated shape keeps its radius (size) and its extent lies inside `[0,1000] x [40,1000]`. -/
theorem arena_containment (sqrt : α → α) (dt : α) :
    (∀ c : Circle α, 0 < c.radius → c.radius ≤ 460 →
      ∃ c' : Circle α, Circle.update sqrt dt [Shape.circle c] 0 = [Shape.circle c'] ∧
        c'.radius = c.radius ∧
        0 ≤ c'.center.x - c'.radius ∧ c'.center.x + c'.radius ≤ 1000 ∧
        40 ≤ c'.center.y - c'.radius ∧ c'.center.y + c'.radius ≤ 1000) ∧
    (∀ r : Rectangle α, 0 < r.size.x → r.size.x ≤ 1000 → 0 < r.size.y → r.size.y ≤ 920 →
      ∃ r' : Rectangle α,
        Rectangle.update sqrt dt [Shape.rectangle r] 0 = [Shape.rectangle r'] ∧
        r'.size = r.size ∧
        0 ≤ r'.center.x - r'.size.x / 2 ∧ r'.center.x + r'.size.x / 2 ≤ 1000 ∧
        40 ≤ r'.center.y - r'.size.y / 2 ∧ r'.center.y + r'.size.y / 2 ≤ 1000) := by
  constructor
  · intro c h0 h1
    refine ⟨c.updateBody dt, circle_update_singleton sqrt dt c, ?_⟩
    simp only [Circle.updateBody, Circle.bounceY, Circle.bounceX, Circle.integrate]
    split_ifs <;> simp only [not_or, not_lt, gt_iff_lt] at * <;>
      refine ⟨trivial, ?_, ?_, ?_, ?_⟩ <;> linarith
  · intro r _ h1 _ h3
    refine ⟨r.updateBody dt, rectangle_update_singleton sqrt dt r, ?_⟩
    have hi : (r.integrate dt).size = r.size := rfl
    obtain ⟨hx1, -, hx3, hx4⟩ := rectangle_bounceX_inside (r.integrate dt)
      (by rw [hi]; exact h1)
    obtain ⟨hy1, hy2, hy3, hy4⟩ := rectangle_bounceY_inside (r.integrate dt).bounceX
      (by rw [hx1, hi]; exact h3)
    have hsz : (r.updateBody dt).size = r.size := by
      show ((r.integrate dt).bounceX).bounceY.size = r.size
      rw [hy1, hx1, hi]
    have hcx : (r.updateBody dt).center.x = (r.integrate dt).bounceX.center.x := hy2
    have hcy : (r.updateBody dt).center.y = ((r.integrate dt).bounceX).bounceY.center.y := rfl
    rw [hx1, hi] at hy3 hy4
    rw [hi] at hx3 hx4
    rw [hsz, hcx, hcy]
    exact ⟨rfl, hx3, hx4, hy3, hy4⟩

/-- Instance of C9 on the reals: a circle of radius 460 thrown far outside the arena is
brought back inside by one update. -/
theorem arena_containment_witness :
    ∃ c' : Circle ℝ,
      Circle.update Real.sqrt 1
        [Shape.circle ⟨⟨5000, -7000⟩, ⟨0, -200⟩, ⟨30, 40⟩, ⟨0, 0, 0⟩, false, 460⟩] 0 =
        [Shape.circle c'] ∧
      c'.radius = 460 ∧
      0 ≤ c'.center.x - c'.radius ∧ c'.center.x + c'.radius ≤ 1000 ∧
      40 ≤ c'.center.y - c'.radius ∧ c'.center.y + c'.radius ≤ 1000 :=
  (arena_containment Real.sqrt 1).1
    ⟨⟨5000, -7000⟩, ⟨0, -200⟩, ⟨30, 40⟩, ⟨0, 0, 0⟩, false, 460⟩ (by norm_num) (by norm_num)

/-- C10, as the spec states it, fails at the largest scale: from `a_const = 2147483647`, with
a stored acceleration `(0, -200) * 2147483647`, the increment wraps the 32-bit scale to
`-2147483648`, which is not `s + 1`, and the stored acceleration becomes
`(0, -200) * (-2147483648)`, which is not `(0, -200) * (s + 1)`. -/
theorem keyEquals_counterexample :
    (1 : Int) ≤ 2147483647 ∧
    (keyEquals (⟨[Shape.circle ⟨⟨0, 0⟩, Vector.mul ⟨0, -200⟩ ((2147483647 : Int) : ℚ), ⟨0, 0⟩,
        ⟨0, 0, 0⟩, false, 20⟩], ⟨0, -200⟩, 2147483647⟩ : Sim ℚ)).a_const = -2147483648 ∧
    (keyEquals (⟨[Shape.circle ⟨⟨0, 0⟩, Vector.mul ⟨0, -200⟩ ((2147483647 : Int) : ℚ), ⟨0, 0⟩,
        ⟨0, 0, 0⟩, false, 20⟩], ⟨0, -200⟩, 2147483647⟩ : Sim ℚ)).a_const ≠ 2147483647 + 1 ∧
    ((keyEquals (⟨[Shape.circle ⟨⟨0, 0⟩, Vector.mul ⟨0, -200⟩ ((2147483647 : Int) : ℚ), ⟨0, 0⟩,
        ⟨0, 0, 0⟩, false, 20⟩], ⟨0, -200⟩, 2147483647⟩ : Sim ℚ)).shapes.map
      fun shape => shape.acceleration.y) = [-200 * (-2147483648)] ∧
    (-200 * (-2147483648) : ℚ) ≠ -200 * (((2147483647 + 1 : Int)) : ℚ) := by
  refine ⟨by decide, by decide, by decide, ?_, by norm_num⟩
  simp only [keyEquals, wrapInt, Shape.setAcceleration, Shape.acceleration, Vector.mul,
    Vector.div, List.map]
  norm_num

/-- C10, amended: for every scale `s` with `1 <= s < 2147483647` (so that `s + 1` is still a
32-bit `int`) the increment command leaves the number of shapes unchanged, makes the scale
`s + 1`, and turns every stored acceleration `base * s` into `base * (s + 1)`.  Hence two
increments from scale 1 on a shape with acceleration `(0, -200)` give scale 3 and acceleration
`(0, -600)`.  The increment command is `handleKeyboard` with only the `=` key down. -/
theorem keyEquals_rescales (sqrt : α → α) (rand : Nat → Nat) :
    (∀ s : Sim α, 1 ≤ s.a_const → s.a_const < INT_MAX →
      (keyEquals s).a_const = s.a_const + 1 ∧
      (keyEquals s).shapes.length = s.shapes.length ∧
      ∀ (k : Nat) (shape : Shape α) (base : Vector α),
        s.shapes[k]? = some shape → shape.acceleration = base.mul (s.a_const : α) →
        ∃ shape' : Shape α, (keyEquals s).shapes[k]? = some shape' ∧
          shape'.acceleration = base.mul ((s.a_const + 1 : Int) : α)) ∧
    (∀ (shape : Shape α) (a : Vector α), shape.acceleration = ⟨0, -200⟩ →
      (keyEquals (keyEquals ⟨[shape], a, 1⟩)).a_const = 3 ∧
      ∃ shape' : Shape α, (keyEquals (keyEquals ⟨[shape], a, 1⟩)).shapes = [shape'] ∧
        shape'.acceleration = ⟨0, -600⟩) ∧
    (∀ s : Sim α,
      handleKeyboard sqrt rand ⟨false, false, false, false, false, false, false, true⟩ s =
        keyEquals s) := by
  refine ⟨?_, ?_, fun _ => rfl⟩
  · intro s h1 h2
    have hpos : s.a_const > 0 := by omega
    have hw : wrapInt (s.a_const + 1) = s.a_const + 1 := by
      unfold INT_MAX at h2
      exact wrapInt_eq_self (by omega) (by omega)
    have hne : (s.a_const : α) ≠ 0 := Int.cast_ne_zero.mpr (by omega)
    refine ⟨?_, ?_, ?_⟩
    · simp only [keyEquals, if_pos hpos, hw]
    · simp only [keyEquals, if_pos hpos, List.length_map]
    · intro k shape base hk hacc
      refine ⟨(shape.setAcceleration (shape.acceleration.div (s.a_const : α))).setAcceleration
        (((shape.setAcceleration (shape.acceleration.div (s.a_const : α))).acceleration).mul
          ((s.a_const + 1 : Int) : α)), ?_, ?_⟩
      · simp only [keyEquals, if_pos hpos, hw, List.getElem?_map, hk, Option.map_some']
      · rw [shape_acceleration_setAcceleration, shape_acceleration_setAcceleration, hacc]
        simp only [Vector.mul, Vector.div, Vector.mk.injEq]
        constructor <;> field_simp
  · intro shape a hacc
    have h2 : wrapInt 2 = 2 := by decide
    have h3 : wrapInt 3 = 3 := by decide
    have hs : keyEquals (keyEquals (⟨[shape], a, 1⟩ : Sim α)) =
        ⟨[shape.setAcceleration ((((shape.acceleration.div 1).mul 2).div 2).mul 3)], a, 3⟩ := by
      simp [keyEquals, h2, h3, shape_acceleration_setAcceleration]
      cases shape <;> rfl
    rw [hs]
    refine ⟨rfl, _, rfl, ?_⟩
    rw [shape_acceleration_setAcceleration, hacc]
    simp only [Vector.mul, Vector.div, Vector.mk.injEq]
    constructor <;> norm_num

/-- Instance of the amended C10 on the reals: one increment from scale 2 on a circle whose
stored acceleration is `(0, -200) * 2`. -/
theorem keyEquals_rescales_witness :
    (1 : Int) ≤ 2 ∧ (2 : Int) < INT_MAX ∧
    (keyEquals (⟨[Shape.circle ⟨⟨0, 0⟩, ⟨0, -400⟩, ⟨0, 0⟩, ⟨0, 0, 0⟩, false, 20⟩],
      ⟨0, -200⟩, 2⟩ : Sim ℝ)).a_const = 2 + 1 :=
  ⟨by decide, by decide,
    ((keyEquals_rescales Real.sqrt (fun _ => 0)).1
      ⟨[Shape.circle ⟨⟨0, 0⟩, ⟨0, -400⟩, ⟨0, 0⟩, ⟨0, 0, 0⟩, false, 20⟩], ⟨0, -200⟩, 2⟩
      (by decide) (by decide)).1⟩

/-- C15: semi-implicit Euler step.  For a circle or a rectangle updated against a collection
that holds no other shape, with `v1 = velocity - acceleration * dt` and
`c1 = center + v1 * dt` (the already-updated velocity moves the center), if neither wall
condition of `update` holds at `c1` then `update` yields velocity `v1` and center `c1` and
leaves acceleration, radius (size) and color unchanged; the flag `intersecting` is reset. -/
theorem euler_step (sqrt : α → α) (dt : α) :
    (∀ (c : Circle α) (v1 c1 : Vector α),
      v1 = c.velocity.sub (c.acceleration.mul dt) → c1 = c.center.add (v1.mul dt) →
      ¬ (c1.x - c.radius < 0 ∨ c1.x + c.radius > 1000) →
      ¬ (c1.y - c.radius - 40 < 0 ∨ c1.y + c.radius + 40 > 1000) →
      Circle.update sqrt dt [Shape.circle c] 0 =
        [Shape.circle { c with velocity := v1, center := c1, intersecting := false }]) ∧
    (∀ (r : Rectangle α) (v1 c1 : Vector α),
      v1 = r.velocity.sub (r.acceleration.mul dt) → c1 = r.center.add (v1.mul dt) →
      ¬ (c1.x - r.size.x / 2 < 0 ∨ c1.x + r.size.x / 2 > 1000) →
      ¬ (c1.y - r.size.y / 2 - 40 < 0 ∨ c1.y + r.size.y / 2 + 40 > 1000) →
      Rectangle.update sqrt dt [Shape.rectangle r] 0 =
        [Shape.rectangle { r with velocity := v1, center := c1, intersecting := false }]) := by
  constructor
  · intro c v1 c1 hv hc hx hy
    subst hv hc
    rw [circle_update_singleton]
    have h1 : (c.integrate dt).bounceX = c.integrate dt := by
      unfold Circle.bounceX
      exact if_neg hx
    have h2 : (c.integrate dt).bounceY = c.integrate dt := by
      unfold Circle.bounceY
      exact if_neg hy
    simp only [Circle.updateBody, h1, h2]
    rfl
  · intro r v1 c1 hv hc hx hy
    subst hv hc
    rw [rectangle_update_singleton]
    have h1 : (r.integrate dt).bounceX = r.integrate dt := by
      unfold Rectangle.bounceX
      exact if_neg hx
    have h2 : (r.integrate dt).bounceY = r.integrate dt := by
      unfold Rectangle.bounceY
      exact if_neg hy
    simp only [Rectangle.updateBody, h1, h2]
    rfl

/-- Instance of C15 on the reals: a circle in the middle of the arena, `dt = 0.1`. -/
theorem euler_step_witness :
    Circle.update Real.sqrt (1 / 10)
      [Shape.circle ⟨⟨500, 500⟩, ⟨0, -200⟩, ⟨30, 0⟩, ⟨1, 2, 3⟩, true, 20⟩] 0 =
      [Shape.circle ⟨⟨503, 502⟩, ⟨0, -200⟩, ⟨30, 20⟩, ⟨1, 2, 3⟩, false, 20⟩] :=
  (euler_step Real.sqrt (1 / 10)).1
    ⟨⟨500, 500⟩, ⟨0, -200⟩, ⟨30, 0⟩, ⟨1, 2, 3⟩, true, 20⟩ ⟨30, 20⟩ ⟨503, 502⟩
    (by simp only [Vector.sub, Vector.mul, Vector.mk.injEq]; norm_num)
    (by simp only [Vector.add, Vector.mul, Vector.mk.injEq]; norm_num)
    (by norm_num) (by norm_num)

/-- C17: rectangle-rectangle velocity response.  With
`overlap = 0.5 * (sizeA + sizeB) - |centerA - centerB|` on each axis: when both overlaps are
positive, `Rectangle::handleCollision(Rectangle&)` sets, on the axis of minimum overlap (x if
`overlapX < overlapY`, else y), the caller's velocity component to `-(vSelf - vOther) / 2` and
the other's to `(vSelf - vOther) / 2`, so that the relative velocity on that axis is negated,
and leaves both velocity components on the other axis unchanged; when either overlap is not
positive the call changes nothing. -/
theorem rect_rect_velocity (A B : Rectangle α) (overlapX overlapY : α)
    (hX : overlapX = 1 / 2 * (A.size.x + B.size.x) - |A.center.x - B.center.x|)
    (hY : overlapY = 1 / 2 * (A.size.y + B.size.y) - |A.center.y - B.center.y|) :
    (0 < overlapX → 0 < overlapY → overlapX < overlapY →
      (A.handleCollision B).1.velocity = ⟨-(A.velocity.x - B.velocity.x) / 2, A.velocity.y⟩ ∧
      (A.handleCollision B).2.velocity = ⟨(A.velocity.x - B.velocity.x) / 2, B.velocity.y⟩ ∧
      (A.handleCollision B).1.velocity.x - (A.handleCollision B).2.velocity.x =
        -(A.velocity.x - B.velocity.x)) ∧
    (0 < overlapX → 0 < overlapY → ¬ overlapX < overlapY →
      (A.handleCollision B).1.velocity = ⟨A.velocity.x, -(A.velocity.y - B.velocity.y) / 2⟩ ∧
      (A.handleCollision B).2.velocity = ⟨B.velocity.x, (A.velocity.y - B.velocity.y) / 2⟩ ∧
      (A.handleCollision B).1.velocity.y - (A.handleCollision B).2.velocity.y =
        -(A.velocity.y - B.velocity.y)) ∧
    (¬ (0 < overlapX ∧ 0 < overlapY) → A.handleCollision B = (A, B)) := by
  subst hX hY
  refine ⟨?_, ?_, ?_⟩
  · intro h1 h2 h3
    have h12 : 1 / 2 * (A.size.x + B.size.x) - |A.center.x - B.center.x| > 0 ∧
        1 / 2 * (A.size.y + B.size.y) - |A.center.y - B.center.y| > 0 := ⟨h1, h2⟩
    have hv1 : (A.handleCollision B).1.velocity =
        ⟨-(A.velocity.x - B.velocity.x) / 2, A.velocity.y⟩ := by
      simp only [Rectangle.handleCollision, if_pos h12, Rectangle.pushApart, if_pos h3,
        Rectangle.correct]
      split_ifs <;> simp only [Vector.mk.injEq, and_true] <;> ring
    have hv2 : (A.handleCollision B).2.velocity =
        ⟨(A.velocity.x - B.velocity.x) / 2, B.velocity.y⟩ := by
      simp only [Rectangle.handleCollision, if_pos h12, Rectangle.pushApart, if_pos h3,
        Rectangle.correct]
      split_ifs <;> simp only [Vector.mk.injEq, and_true] <;> ring
    refine ⟨hv1, hv2, ?_⟩
    rw [hv1, hv2]
    ring
  · intro h1 h2 h3
    have h12 : 1 / 2 * (A.size.x + B.size.x) - |A.center.x - B.center.x| > 0 ∧
        1 / 2 * (A.size.y + B.size.y) - |A.center.y - B.center.y| > 0 := ⟨h1, h2⟩
    have hv1 : (A.handleCollision B).1.velocity =
        ⟨A.velocity.x, -(A.velocity.y - B.velocity.y) / 2⟩ := by
      simp only [Rectangle.handleCollision, if_pos h12, Rectangle.pushApart, if_neg h3,
        Rectangle.correct]
      split_ifs <;> simp only [Vector.mk.injEq, true_and] <;> ring
    have hv2 : (A.handleCollision B).2.velocity =
        ⟨B.velocity.x, (A.velocity.y - B.velocity.y) / 2⟩ := by
      simp only [Rectangle.handleCollision, if_pos h12, Rectangle.pushApart, if_neg h3,
        Rectangle.correct]
      split_ifs <;> simp only [Vector.mk.injEq, true_and] <;> ring
    refine ⟨hv1, hv2, ?_⟩
    rw [hv1, hv2]
    ring
  · intro h
    have h12 : ¬ (1 / 2 * (A.size.x + B.size.x) - |A.center.x - B.center.x| > 0 ∧
        1 / 2 * (A.size.y + B.size.y) - |A.center.y - B.center.y| > 0) := h
    simp only [Rectangle.handleCollision, if_neg h12]

/-- C20: circle-circle positional correction.  Whenever `Circle::handleCollision` does not
return early (`velocityAlongNormal >= 0`) and both radii are positive, the caller's center
becomes `(center.x - 1 / radius^2, center.y)` and the other's
`(other.center.x + 1 / other.radius^2, other.center.y)`: only x moves, by an amount in which
the contact normal does not occur, so when the other circle lies to the left of the caller the
caller still moves left and the other right, towards each other. -/
theorem circle_position_correction (sqrt : α → α) (A B : Circle α)
    (hgo : ¬ ((A.velocity.sub B.velocity).dot ((B.center.sub A.center).normal sqrt) < 0))
    (hA : 0 < A.radius) (hB : 0 < B.radius) :
    (Circle.handleCollision sqrt A B).1.center =
      ⟨A.center.x - 1 / (A.radius * A.radius), A.center.y⟩ ∧
    (Circle.handleCollision sqrt A B).2.center =
      ⟨B.center.x + 1 / (B.radius * B.radius), B.center.y⟩ ∧
    (B.center.x < A.center.x →
      (Circle.handleCollision sqrt A B).1.center.x < A.center.x ∧
      B.center.x < (Circle.handleCollision sqrt A B).2.center.x) := by
  have h1 : (Circle.handleCollision sqrt A B).1.center =
      ⟨A.center.x - 1 / (A.radius * A.radius), A.center.y⟩ := by
    simp only [Circle.handleCollision, if_neg hgo]
    simp only [Vector.sub, Vector.ofScalar, sub_zero]
  have h2 : (Circle.handleCollision sqrt A B).2.center =
      ⟨B.center.x + 1 / (B.radius * B.radius), B.center.y⟩ := by
    simp only [Circle.handleCollision, if_neg hgo]
    simp only [Vector.add, Vector.ofScalar, add_zero]
  refine ⟨h1, h2, fun _ => ?_⟩
  rw [h1, h2]
  have hA2 : 0 < 1 / (A.radius * A.radius) := one_div_pos.mpr (mul_pos hA hA)
  have hB2 : 0 < 1 / (B.radius * B.radius) := one_div_pos.mpr (mul_pos hB hB)
  constructor
  · show A.center.x - 1 / (A.radius * A.radius) < A.center.x
    linarith
  · show B.center.x < B.center.x + 1 / (B.radius * B.radius)
    linarith

/-- C16: restitution in the rectangle-circle resolver.  For a rectangle with positive size
and a circle with positive radius whose center lies outside the rectangle's box, with
`overlap > 0`, `n` the normal from the closest box point to the circle's center, and
`(circle.velocity - rect.velocity) . n <= 0`: `n` is a unit vector and after
`Rectangle::handleCollision(Circle&)` the relative normal velocity
`(circle.velocity' - rect.velocity') . n` is exactly `-0.9` times its value before the call. -/
theorem rect_circle_restitution (sqrt : α → α) (hs : IsSqrt sqrt) (r : Rectangle α)
    (c : Circle α) (n : Vector α)
    (hsx : 0 < r.size.x) (hsy : 0 < r.size.y) (hr : 0 < c.radius)
    (hout : ¬ r.inBox c.center)
    (hn : n = (c.center.sub (r.closestPoint c.center)).normal sqrt)
    (hov : 0 < c.radius - (c.center.sub (r.closestPoint c.center)).length sqrt)
    (hv : (c.velocity.sub r.velocity).dot n ≤ 0) :
    n.dot n = 1 ∧
    ((Rectangle.handleCollisionCircle sqrt r c).2.velocity.sub
        (Rectangle.handleCollisionCircle sqrt r c).1.velocity).dot n =
      -(9 / 10) * (c.velocity.sub r.velocity).dot n := by
  have hd : (c.center.sub (r.closestPoint c.center)).x ≠ 0 ∨
      (c.center.sub (r.closestPoint c.center)).y ≠ 0 := by
    by_contra h
    push_neg at h
    apply hout
    simp only [Vector.sub, Rectangle.closestPoint] at h
    obtain ⟨h1, h2⟩ := clamp_eq_self (sub_eq_zero.mp h.1).symm
    obtain ⟨h3, h4⟩ := clamp_eq_self (sub_eq_zero.mp h.2).symm
    exact ⟨h1, h2, h3, h4⟩
  have hnn : n.dot n = 1 := by
    rw [hn]
    exact isSqrt_normal_dot_self hs _ hd
  refine ⟨hnn, ?_⟩
  have hgo : ¬ (0 < (c.velocity.sub r.velocity).dot n) := not_lt.mpr hv
  have hm : 0 < r.size.x * r.size.y := mul_pos hsx hsy
  have hr2 : 0 < c.radius * c.radius := mul_pos hr hr
  have hK : 0 < 1 / (r.size.x * r.size.y) + 1 / (c.radius * c.radius) :=
    add_pos (one_div_pos.mpr hm) (one_div_pos.mpr hr2)
  simp only [Rectangle.closestPoint] at hn hov
  simp only [Rectangle.handleCollisionCircle, gt_iff_lt, ← hn, if_pos hov, if_neg hgo]
  have hj : -(1 + 9 / 10) * (c.velocity.sub r.velocity).dot n /
      (1 / (r.size.x * r.size.y) + 1 / (c.radius * c.radius)) *
      (1 / (r.size.x * r.size.y) + 1 / (c.radius * c.radius)) =
      -(1 + 9 / 10) * (c.velocity.sub r.velocity).dot n := by
    field_simp
    ring
  generalize -(1 + 9 / 10) * (c.velocity.sub r.velocity).dot n /
      (1 / (r.size.x * r.size.y) + 1 / (c.radius * c.radius)) = j at hj
  simp only [Vector.dot] at hnn
  simp only [Vector.dot, Vector.sub, Vector.add, Vector.mul, Vector.div] at hj ⊢
  linear_combination
    (j * (1 / (r.size.x * r.size.y) + 1 / (c.radius * c.radius))) * hnn + hj

/-- C13: spawner output ranges.  For every sequence of `rand()` results (natural numbers),
every collection, direction `a` and magnitude `a_const`, `createRandomShape` returns a circle
with radius in `[20, 49]` or a rectangle with `size.x` in `[40, 139]` and `size.y` in
`[40, 99]` (so radius and sizes are positive), with both center coordinates in `[30, 970]`,
velocity `(0, 0)` and acceleration `a * a_const`. -/
theorem createRandomShape_ranges (sqrt : α → α) (rand : Nat → Nat) (shapes : List (Shape α))
    (a : Vector α) (a_const : Int) :
    (∃ c : Circle α, createRandomShape sqrt rand shapes a a_const = some (Shape.circle c) ∧
      20 ≤ c.radius ∧ c.radius ≤ 49 ∧ 0 < c.radius ∧
      30 ≤ c.center.x ∧ c.center.x ≤ 970 ∧ 30 ≤ c.center.y ∧ c.center.y ≤ 970 ∧
      c.velocity = ⟨0, 0⟩ ∧ c.acceleration = a.mul (a_const : α)) ∨
    (∃ r : Rectangle α, createRandomShape sqrt rand shapes a a_const = some (Shape.rectangle r) ∧
      40 ≤ r.size.x ∧ r.size.x ≤ 139 ∧ 40 ≤ r.size.y ∧ r.size.y ≤ 99 ∧
      0 < r.size.x ∧ 0 < r.size.y ∧
      30 ≤ r.center.x ∧ r.center.x ≤ 970 ∧ 30 ≤ r.center.y ∧ r.center.y ≤ 970 ∧
      r.velocity = ⟨0, 0⟩ ∧ r.acceleration = a.mul (a_const : α)) := by
  have h1 : 20 ≤ 20 + rand 1 % 30 ∧ 20 + rand 1 % 30 ≤ 49 := by omega
  have h5 : 40 ≤ 40 + rand 5 % 100 ∧ 40 + rand 5 % 100 ≤ 139 := by omega
  have h6 : 40 ≤ 40 + rand 6 % 60 ∧ 40 + rand 6 % 60 ≤ 99 := by omega
  have h7 : 30 ≤ rand 7 % 940 + 30 ∧ rand 7 % 940 + 30 ≤ 970 := by omega
  have h8 : 30 ≤ rand 8 % 940 + 30 ∧ rand 8 % 940 + 30 ≤ 970 := by omega
  have c1a : (20 : α) ≤ ((20 + rand 1 % 30 : Nat) : α) := by exact_mod_cast h1.1
  have c1b : ((20 + rand 1 % 30 : Nat) : α) ≤ 49 := by exact_mod_cast h1.2
  have c5a : (40 : α) ≤ ((40 + rand 5 % 100 : Nat) : α) := by exact_mod_cast h5.1
  have c5b : ((40 + rand 5 % 100 : Nat) : α) ≤ 139 := by exact_mod_cast h5.2
  have c6a : (40 : α) ≤ ((40 + rand 6 % 60 : Nat) : α) := by exact_mod_cast h6.1
  have c6b : ((40 + rand 6 % 60 : Nat) : α) ≤ 99 := by exact_mod_cast h6.2
  have c7a : (30 : α) ≤ ((rand 7 % 940 + 30 : Nat) : α) := by exact_mod_cast h7.1
  have c7b : ((rand 7 % 940 + 30 : Nat) : α) ≤ 970 := by exact_mod_cast h7.2
  have c8a : (30 : α) ≤ ((rand 8 % 940 + 30 : Nat) : α) := by exact_mod_cast h8.1
  have c8b : ((rand 8 % 940 + 30 : Nat) : α) ≤ 970 := by exact_mod_cast h8.2
  by_cases ht : rand 0 % 2 = 0
  · left
    refine ⟨Circle.new ⟨((rand 7 % 940 + 30 : Nat) : α), ((rand 8 % 940 + 30 : Nat) : α)⟩
      ((20 + rand 1 % 30 : Nat) : α) (tigrRGB (rand 2 % 256) (rand 3 % 256) (rand 4 % 256))
      (a.mul (a_const : α)) ⟨0, 0⟩, ?_, c1a, c1b, lt_of_lt_of_le (by norm_num) c1a,
      c7a, c7b, c8a, c8b, rfl, rfl⟩
    simp only [createRandomShape, if_pos ht, Nat.ofNat_pos, if_true]
  · right
    refine ⟨Rectangle.new ⟨((rand 7 % 940 + 30 : Nat) : α), ((rand 8 % 940 + 30 : Nat) : α)⟩
      ⟨((40 + rand 5 % 100 : Nat) : α), ((40 + rand 6 % 60 : Nat) : α)⟩
      (tigrRGB (rand 2 % 256) (rand 3 % 256) (rand 4 % 256))
      (a.mul (a_const : α)) ⟨0, 0⟩, ?_, c5a, c5b, c6a, c6b,
      lt_of_lt_of_le (by norm_num) c5a, lt_of_lt_of_le (by norm_num) c6a,
      c7a, c7b, c8a, c8b, rfl, rfl⟩
    simp only [createRandomShape, if_neg ht, Nat.ofNat_pos, if_true]

/-- C11, as the spec states it, fails in its reachability clause: from scale 1 and an empty
collection, 2147483647 increment commands (each a call of `handleKeyboard` with only the `=`
key down) wrap the 32-bit scale to `-2147483648`, a negative scale in a reachable state. -/
theorem keyMinus_floor_counterexample :
    (handleKeyboardSeq Real.sqrt
      (List.replicate 2147483647
        (fun _ => 0, ⟨false, false, false, false, false, false, false, true⟩))
      (⟨[], ⟨0, -200⟩, 1⟩ : Sim ℝ)).a_const = -2147483648 ∧
    (-2147483648 : Int) < 0 := by
  refine ⟨?_, by decide⟩
  have hn : (2147483647 : Nat) = 2147483646 + 1 := by norm_num
  rw [hn, List.replicate_succ']
  unfold handleKeyboardSeq
  rw [List.foldl_append]
  have h := handleKeyboardSeq_replicate_equals Real.sqrt (fun _ => 0) 2147483646
    (⟨[], ⟨0, -200⟩, 1⟩ : Sim ℝ) (by decide) (by decide)
  unfold handleKeyboardSeq at h
  simp only [List.foldl_cons, List.foldl_nil]
  rw [handleKeyboard_a_const, h]
  decide

/-- C11, amended: the decrement command has a floor at 0.  From any scale `0 <= s <= INT_MAX`
the scale becomes `max (s - 1) 0`; the scale is never negative in any state reached from
scale 1 through calls of `handleKeyboard` (spawn, clear, direction, increment, decrement)
among which fewer than 2147483647 are increments; for `s >= 1` every stored acceleration is
multiplied by `(s - 1) / s`; for `s = 0` the scale stays 0 and every acceleration becomes
`(0, 0)`.  The decrement command is `handleKeyboard` with only the `-` key down. -/
theorem keyMinus_floor (sqrt : α → α) :
    (∀ s : Sim α, 0 ≤ s.a_const → s.a_const ≤ INT_MAX →
      (keyMinus s).a_const = max (s.a_const - 1) 0) ∧
    (∀ (inputs : List ((Nat → Nat) × Keys)) (s : Sim α), s.a_const = 1 →
      ((inputs.countP fun input => input.2.equals : Nat) : Int) < INT_MAX →
      0 ≤ (handleKeyboardSeq sqrt inputs s).a_const) ∧
    (∀ s : Sim α, 1 ≤ s.a_const → s.a_const ≤ INT_MAX →
      (keyMinus s).shapes = s.shapes.map fun shape =>
        shape.setAcceleration
          (shape.acceleration.mul (((s.a_const - 1 : Int) : α) / (s.a_const : α)))) ∧
    (∀ s : Sim α, s.a_const = 0 →
      (keyMinus s).a_const = 0 ∧
      (keyMinus s).shapes = s.shapes.map fun shape => shape.setAcceleration ⟨0, 0⟩) ∧
    (∀ (rand : Nat → Nat) (s : Sim α),
      handleKeyboard sqrt rand ⟨false, false, false, false, false, false, true, false⟩ s =
        keyMinus s) := by
  refine ⟨?_, ?_, ?_, ?_, fun _ _ => rfl⟩
  · intro s h0 h1
    unfold INT_MAX at h1
    rw [keyMinus_a_const]
    split_ifs with h
    · rw [wrapInt_eq_self (by omega) (by omega)]
      omega
    · omega
  · intro inputs s h1 hc
    exact (handleKeyboardSeq_a_const sqrt inputs s (by omega) (by omega)).1
  · intro s h1 h2
    unfold INT_MAX at h2
    have hpos : s.a_const > 0 := by omega
    have hne : (s.a_const : α) ≠ 0 := Int.cast_ne_zero.mpr (by omega)
    simp only [keyMinus, if_pos hpos, wrapInt_eq_self (show -2147483648 ≤ s.a_const - 1 by omega)
      (show s.a_const - 1 ≤ 2147483647 by omega), List.map_map]
    apply List.map_congr_left
    intro shape _
    simp only [Function.comp, shape_setAcceleration_twice, shape_acceleration_setAcceleration]
    congr 1
    simp only [Vector.mul, Vector.div, Vector.mk.injEq]
    constructor <;> field_simp
  · intro s h0
    have hneg : ¬ s.a_const > 0 := by omega
    have hn0 : ¬ ((0 : Int) > 0) := by decide
    refine ⟨?_, ?_⟩
    · rw [keyMinus_a_const, if_neg hneg, h0]
    · simp only [keyMinus, h0, if_neg hn0, Int.cast_zero]
      apply List.map_congr_left
      intro shape _
      congr 1
      simp only [Vector.mul, mul_zero]

/-- Instance of the amended C11 on the reals: one decrement at scale 3. -/
theorem keyMinus_floor_witness :
    (0 : Int) ≤ 3 ∧ (3 : Int) ≤ INT_MAX ∧
    (keyMinus (⟨[Shape.circle ⟨⟨0, 0⟩, ⟨0, -600⟩, ⟨0, 0⟩, ⟨0, 0, 0⟩, false, 20⟩],
      ⟨0, -200⟩, 3⟩ : Sim ℝ)).a_const = max (3 - 1) 0 :=
  ⟨by decide, by decide,
    (keyMinus_floor Real.sqrt).1
      ⟨[Shape.circle ⟨⟨0, 0⟩, ⟨0, -600⟩, ⟨0, 0⟩, ⟨0, 0, 0⟩, false, 20⟩], ⟨0, -200⟩, 3⟩
      (by decide) (by decide)⟩

/-- C12 at the failing input.  At scale 1 a circle with stored acceleration `(0, -200)` is
left with acceleration `(0, 0)` by a decrement followed by an increment (two calls of
`handleKeyboard`, the first with only the `-` key down, the second with only the `=` key
down), although the scale is back at 1; a direction key pressed in that state stores
`a * a_const = (0, -200)` again, which the increment did not. -/
theorem gravity_round_trip_lost :
    handleKeyboard Real.sqrt (fun _ => 0)
      ⟨false, false, false, false, false, false, false, true⟩
      (handleKeyboard Real.sqrt (fun _ => 0)
        ⟨false, false, false, false, false, false, true, false⟩
        (⟨[Shape.circle ⟨⟨0, 0⟩, ⟨0, -200⟩, ⟨0, 0⟩, ⟨0, 0, 0⟩, false, 20⟩],
          ⟨0, -200⟩, 1⟩ : Sim ℝ)) =
      keyEquals (keyMinus (⟨[Shape.circle ⟨⟨0, 0⟩, ⟨0, -200⟩, ⟨0, 0⟩, ⟨0, 0, 0⟩, false, 20⟩],
        ⟨0, -200⟩, 1⟩ : Sim ℝ)) ∧
    (keyEquals (keyMinus (⟨[Shape.circle ⟨⟨0, 0⟩, ⟨0, -200⟩, ⟨0, 0⟩, ⟨0, 0, 0⟩, false, 20⟩],
      ⟨0, -200⟩, 1⟩ : Sim ℝ))).a_const = 1 ∧
    (keyEquals (keyMinus (⟨[Shape.circle ⟨⟨0, 0⟩, ⟨0, -200⟩, ⟨0, 0⟩, ⟨0, 0, 0⟩, false, 20⟩],
      ⟨0, -200⟩, 1⟩ : Sim ℝ))).shapes.map (fun shape => shape.acceleration.y) = [0] ∧
    (0 : ℝ) ≠ -200 ∧
    (keyDirection ⟨0, -200⟩
      (keyEquals (keyMinus (⟨[Shape.circle ⟨⟨0, 0⟩, ⟨0, -200⟩, ⟨0, 0⟩, ⟨0, 0, 0⟩, false, 20⟩],
        ⟨0, -200⟩, 1⟩ : Sim ℝ)))).shapes.map (fun shape => shape.acceleration.y) = [-200] := by
  have h0 : wrapInt 0 = 0 := by decide
  have h1 : wrapInt 1 = 1 := by decide
  refine ⟨rfl, by decide, ?_, by norm_num, ?_⟩
  · simp [keyEquals, keyMinus, h0, h1, Shape.setAcceleration, Shape.acceleration, Vector.mul,
      Vector.div]
  · simp [keyDirection, keyEquals, keyMinus, h0, h1, Shape.setAcceleration,
      Shape.acceleration, Vector.mul, Vector.div]

/-- C18 at two inputs the code can meet.  A circle of radius 49 spawned at rest with center
`(969, 500)` is through the right wall (`969 + 49 > 1000`); its x-velocity is zero, so
`update` places it on the left wall (`center.x = 49`, not `951`).  A circle of radius 20
whose center `(20 - 1/400, 500)` is just through the left wall while its velocity `(0.1, 0)`
points away from that wall is placed on the right wall (`center.x = 980`, not `20`). -/
theorem wall_clamp_wrong_wall :
    (969 + (0 - 0 * (1 / 100)) * (1 / 100) + 49 : ℝ) > 1000 ∧
    Circle.update Real.sqrt (1 / 100)
      [Shape.circle ⟨⟨969, 500⟩, ⟨0, -200⟩, ⟨0, 0⟩, ⟨0, 0, 0⟩, false, 49⟩] 0 =
      [Shape.circle ⟨⟨49, 500 + 2 * (1 / 100)⟩, ⟨0, -200⟩, ⟨0, 2⟩, ⟨0, 0, 0⟩, false, 49⟩] ∧
    (49 : ℝ) ≠ 1000 - 49 ∧
    (20 - 1 / 400 + (1 / 10 - 0 * (1 / 60)) * (1 / 60) - 20 : ℝ) < 0 ∧
    Circle.update Real.sqrt (1 / 60)
      [Shape.circle ⟨⟨20 - 1 / 400, 500⟩, ⟨0, 0⟩, ⟨1 / 10, 0⟩, ⟨0, 0, 0⟩, false, 20⟩] 0 =
      [Shape.circle ⟨⟨1000 - 20, 500⟩, ⟨0, 0⟩, ⟨-(9 / 100), 0⟩, ⟨0, 0, 0⟩, false, 20⟩] ∧
    (1000 - 20 : ℝ) ≠ 20 := by
  refine ⟨by norm_num, ?_, by norm_num, by norm_num, ?_, by norm_num⟩
  · rw [circle_update_singleton]
    simp only [Circle.updateBody, Circle.bounceY, Circle.bounceX, Circle.integrate, Vector.sub,
      Vector.add, Vector.mul]
    norm_num
  · rw [circle_update_singleton]
    simp only [Circle.updateBody, Circle.bounceY, Circle.bounceX, Circle.integrate, Vector.sub,
      Vector.add, Vector.mul]
    norm_num

/-- C14, as the spec states it, fails for a circle that overlaps only a rectangle: with a
circle of radius 10 and a 40x40 rectangle both centred at (100, 100) the rectangle-circle
closest-point test is true, yet `update` on the circle (here with `dt = 0`) leaves the circle's
flag `false`, because the loop of `Circle::update` skips every rectangle. -/
theorem intersecting_flag_counterexample :
    Rectangle.intersectCircle
      (⟨⟨100, 100⟩, ⟨0, 0⟩, ⟨0, 0⟩, ⟨0, 0, 0⟩, false, ⟨40, 40⟩⟩ : Rectangle ℝ)
      (⟨⟨100, 100⟩, ⟨0, 0⟩, ⟨0, 0⟩, ⟨0, 0, 0⟩, false, 10⟩ : Circle ℝ) = true ∧
    Shape.update Real.sqrt 0
      [Shape.circle ⟨⟨100, 100⟩, ⟨0, 0⟩, ⟨0, 0⟩, ⟨0, 0, 0⟩, true, 10⟩,
       Shape.rectangle ⟨⟨100, 100⟩, ⟨0, 0⟩, ⟨0, 0⟩, ⟨0, 0, 0⟩, false, ⟨40, 40⟩⟩] 0 =
      [Shape.circle ⟨⟨100, 100⟩, ⟨0, 0⟩, ⟨0, 0⟩, ⟨0, 0, 0⟩, false, 10⟩,
       Shape.rectangle ⟨⟨100, 100⟩, ⟨0, 0⟩, ⟨0, 0⟩, ⟨0, 0, 0⟩, false, ⟨40, 40⟩⟩] := by
  constructor
  · simp only [Rectangle.intersectCircle, clamp]
    norm_num
  · simp only [Shape.update, Circle.update, Circle.visit, Circle.updateBody, Circle.integrate,
      Circle.bounceX, Circle.bounceY, Vector.sub, Vector.add, Vector.mul, List.range,
      List.range.loop, List.foldl, List.getElem?_cons_zero, List.getElem?_cons_succ,
      List.set_cons_zero, List.length_cons, List.length_nil]
    norm_num

/-- C14, amended: after `update` on the shape at index `i` its flag `intersecting` is `true`
exactly when, for some other index `j` of the collection, the test the loop runs on entry `j`
was true in the state the collection had when the loop reached `j`.  For a `Rectangle`
receiver that test is the box test against a `Rectangle` and the closest-point test against a
`Circle`; for a `Circle` receiver it is the distance test against a `Circle`, and a
`Rectangle` entry never raises the flag. -/
theorem intersecting_flag (sqrt : α → α) (dt : α) (shapes : List (Shape α)) (i : Nat) :
    (∀ c : Circle α, shapes[i]? = some (Shape.circle c) →
      (((Shape.update sqrt dt shapes i)[i]?.map Shape.intersecting = some true) ↔
        ∃ j, j < shapes.length ∧ (j ≠ i ∧ ∃ self other : Circle α,
          ((List.range j).foldl (Circle.visit sqrt i)
            (shapes.set i (Shape.circle (c.updateBody dt))))[i]? = some (Shape.circle self) ∧
          ((List.range j).foldl (Circle.visit sqrt i)
            (shapes.set i (Shape.circle (c.updateBody dt))))[j]? = some (Shape.circle other) ∧
          self.intersectCircle sqrt other = true))) ∧
    (∀ r : Rectangle α, shapes[i]? = some (Shape.rectangle r) →
      (((Shape.update sqrt dt shapes i)[i]?.map Shape.intersecting = some true) ↔
        ∃ j, j < shapes.length ∧ (j ≠ i ∧ ∃ self : Rectangle α,
          ((List.range j).foldl (Rectangle.visit sqrt i)
            (shapes.set i (Shape.rectangle (r.updateBody dt))))[i]? =
              some (Shape.rectangle self) ∧
          ((∃ rect : Rectangle α,
              ((List.range j).foldl (Rectangle.visit sqrt i)
                (shapes.set i (Shape.rectangle (r.updateBody dt))))[j]? =
                  some (Shape.rectangle rect) ∧
              self.intersectRect rect = true) ∨
            (∃ circ : Circle α,
              ((List.range j).foldl (Rectangle.visit sqrt i)
                (shapes.set i (Shape.rectangle (r.updateBody dt))))[j]? =
                  some (Shape.circle circ) ∧
              self.intersectCircle circ = true))))) := by
  constructor
  · intro c hc
    obtain ⟨hlt, -⟩ := List.getElem?_eq_some_iff.mp hc
    simp only [Shape.update, Circle.update, hc]
    refine foldl_range_flag (Circle.visit sqrt i)
      (fun s => s[i]?.map Shape.intersecting = some true) _ (circle_visit_flag sqrt i) _ ?_ _
    simp only [List.getElem?_set_self hlt, Option.map_some', Shape.intersecting,
      Circle.updateBody, Option.some.injEq, Bool.false_eq_true, not_false_eq_true]
  · intro r hr
    obtain ⟨hlt, -⟩ := List.getElem?_eq_some_iff.mp hr
    simp only [Shape.update, Rectangle.update, hr]
    refine foldl_range_flag (Rectangle.visit sqrt i)
      (fun s => s[i]?.map Shape.intersecting = some true) _ (rectangle_visit_flag sqrt i) _ ?_ _
    simp only [List.getElem?_set_self hlt, Option.map_some', Shape.intersecting,
      Rectangle.updateBody, Option.some.injEq, Bool.false_eq_true, not_false_eq_true]

/-- Instance of the amended C14 on the reals: two overlapping circles at rest; the update of
the first raises its flag. -/
theorem intersecting_flag_witness :
    (Shape.update Real.sqrt 0
      [Shape.circle ⟨⟨100, 100⟩, ⟨0, 0⟩, ⟨0, 0⟩, ⟨0, 0, 0⟩, false, 10⟩,
       Shape.circle ⟨⟨100, 100⟩, ⟨0, 0⟩, ⟨0, 0⟩, ⟨0, 0, 0⟩, false, 10⟩] 0)[0]?.map
      Shape.intersecting = some true := by
  refine ((intersecting_flag Real.sqrt 0
    [Shape.circle ⟨⟨100, 100⟩, ⟨0, 0⟩, ⟨0, 0⟩, ⟨0, 0, 0⟩, false, 10⟩,
     Shape.circle ⟨⟨100, 100⟩, ⟨0, 0⟩, ⟨0, 0⟩, ⟨0, 0, 0⟩, false, 10⟩] 0).1 _ rfl).mpr
    ⟨1, by decide, by decide, _, _, rfl, rfl, ?_⟩
  simp only [Circle.intersectCircle, Circle.updateBody, Circle.integrate, Circle.bounceX,
    Circle.bounceY, Vector.sub, Vector.add, Vector.mul, Vector.length]
  norm_num

/-- Instance of C16 on the reals: a 40x40 rectangle at rest at the origin and a circle of
radius 10 centred at (25, 0) moving with velocity (-4, 3); the normal is (1, 0). -/
theorem rect_circle_restitution_witness :
    ((Rectangle.handleCollisionCircle Real.sqrt
        (⟨⟨0, 0⟩, ⟨0, 0⟩, ⟨0, 0⟩, ⟨0, 0, 0⟩, false, ⟨40, 40⟩⟩ : Rectangle ℝ)
        (⟨⟨25, 0⟩, ⟨0, 0⟩, ⟨-4, 3⟩, ⟨0, 0, 0⟩, false, 10⟩ : Circle ℝ)).2.velocity.sub
      (Rectangle.handleCollisionCircle Real.sqrt
        (⟨⟨0, 0⟩, ⟨0, 0⟩, ⟨0, 0⟩, ⟨0, 0, 0⟩, false, ⟨40, 40⟩⟩ : Rectangle ℝ)
        (⟨⟨25, 0⟩, ⟨0, 0⟩, ⟨-4, 3⟩, ⟨0, 0, 0⟩, false, 10⟩ : Circle ℝ)).1.velocity).dot
      ⟨1, 0⟩ =
    -(9 / 10) * ((⟨-4, 3⟩ : Vector ℝ).sub ⟨0, 0⟩).dot ⟨1, 0⟩ :=
  (rect_circle_restitution Real.sqrt isSqrt_real
    ⟨⟨0, 0⟩, ⟨0, 0⟩, ⟨0, 0⟩, ⟨0, 0, 0⟩, false, ⟨40, 40⟩⟩
    ⟨⟨25, 0⟩, ⟨0, 0⟩, ⟨-4, 3⟩, ⟨0, 0, 0⟩, false, 10⟩ ⟨1, 0⟩
    (by norm_num) (by norm_num) (by norm_num)
    (by simp only [Rectangle.inBox]; norm_num)
    (by
      simp only [Rectangle.closestPoint, clamp, Vector.sub, Vector.normal, Vector.length]
      norm_num [real_sqrt_25])
    (by
      simp only [Rectangle.closestPoint, clamp, Vector.sub, Vector.length]
      norm_num [real_sqrt_25])
    (by simp only [Vector.sub, Vector.dot]; norm_num)).2

/-- Instance of C17 on the reals: overlap 10 on x and 30 on y, so the x axis is chosen. -/
theorem rect_rect_velocity_witness :
    (Rectangle.handleCollision
      (⟨⟨0, 0⟩, ⟨0, 0⟩, ⟨3, 1⟩, ⟨0, 0, 0⟩, false, ⟨40, 40⟩⟩ : Rectangle ℝ)
      ⟨⟨30, 10⟩, ⟨0, 0⟩, ⟨-1, 2⟩, ⟨0, 0, 0⟩, false, ⟨40, 40⟩⟩).1.velocity =
      ⟨-(3 - -1) / 2, 1⟩ :=
  ((rect_rect_velocity
    (⟨⟨0, 0⟩, ⟨0, 0⟩, ⟨3, 1⟩, ⟨0, 0, 0⟩, false, ⟨40, 40⟩⟩ : Rectangle ℝ)
    ⟨⟨30, 10⟩, ⟨0, 0⟩, ⟨-1, 2⟩, ⟨0, 0, 0⟩, false, ⟨40, 40⟩⟩ 10 30
    (by norm_num [abs_of_nonneg]) (by norm_num [abs_of_nonneg])).1
    (by norm_num) (by norm_num) (by norm_num)).1

/-- Instance of C20 on the reals: two circles of radius 20 at rest. -/
theorem circle_position_correction_witness :
    (Circle.handleCollision Real.sqrt
      (⟨⟨100, 100⟩, ⟨0, 0⟩, ⟨0, 0⟩, ⟨0, 0, 0⟩, false, 20⟩ : Circle ℝ)
      ⟨⟨135, 100⟩, ⟨0, 0⟩, ⟨0, 0⟩, ⟨0, 0, 0⟩, false, 20⟩).1.center =
      ⟨100 - 1 / (20 * 20), 100⟩ :=
  (circle_position_correction Real.sqrt
    (⟨⟨100, 100⟩, ⟨0, 0⟩, ⟨0, 0⟩, ⟨0, 0, 0⟩, false, 20⟩ : Circle ℝ)
    ⟨⟨135, 100⟩, ⟨0, 0⟩, ⟨0, 0⟩, ⟨0, 0, 0⟩, false, 20⟩
    (by simp only [Vector.sub, Vector.dot]; norm_num)
    (by norm_num) (by norm_num)).1

/-- C21: the spawner ignores the existing collection and never fails.  For every sequence of
`rand()` results, direction `a` and magnitude `a_const` there is one shape that
`createRandomShape` returns whatever the collection is, so for any two collections the
returned shapes are identical in every field; and the collection is left as it is: after the
spawn branch of `handleKeyboard` it is the old collection followed by the new shape. -/
theorem createRandomShape_ignores_collection (sqrt : α → α) (rand : Nat → Nat)
    (a : Vector α) (a_const : Int) :
    (∃ shape : Shape α,
      (∀ shapes : List (Shape α), createRandomShape sqrt rand shapes a a_const = some shape) ∧
      (∀ s : Sim α, s.a = a → s.a_const = a_const →
        keySpace sqrt rand s = { s with shapes := s.shapes ++ [shape] })) ∧
    (∀ shapes1 shapes2 : List (Shape α),
      createRandomShape sqrt rand shapes1 a a_const =
        createRandomShape sqrt rand shapes2 a a_const) := by
  have hall : ∃ shape : Shape α, ∀ shapes : List (Shape α),
      createRandomShape sqrt rand shapes a a_const = some shape := by
    by_cases ht : rand 0 % 2 = 0
    · refine ⟨Shape.circle (Circle.new
        ⟨((rand 7 % 940 + 30 : Nat) : α), ((rand 8 % 940 + 30 : Nat) : α)⟩
        ((20 + rand 1 % 30 : Nat) : α) (tigrRGB (rand 2 % 256) (rand 3 % 256) (rand 4 % 256))
        (a.mul (a_const : α)) ⟨0, 0⟩), fun shapes => ?_⟩
      simp only [createRandomShape, if_pos ht, Nat.ofNat_pos, if_true]
    · refine ⟨Shape.rectangle (Rectangle.new
        ⟨((rand 7 % 940 + 30 : Nat) : α), ((rand 8 % 940 + 30 : Nat) : α)⟩
        ⟨((40 + rand 5 % 100 : Nat) : α), ((40 + rand 6 % 60 : Nat) : α)⟩
        (tigrRGB (rand 2 % 256) (rand 3 % 256) (rand 4 % 256))
        (a.mul (a_const : α)) ⟨0, 0⟩), fun shapes => ?_⟩
      simp only [createRandomShape, if_neg ht, Nat.ofNat_pos, if_true]
  obtain ⟨shape, hshape⟩ := hall
  refine ⟨⟨shape, hshape, ?_⟩, ?_⟩
  · intro s ha hc
    subst ha hc
    simp only [keySpace, hshape s.shapes]
  · intro shapes1 shapes2
    rw [hshape shapes1, hshape shapes2]

end Claims

end Physics
